import Mathlib

/-!
Verification development for the Health Bridge dashboard card
(`custom_components/health_bridge/health-bridge-card.js`).

The card is a JavaScript custom element.  Its behaviour is embedded here as
executable Lean definitions:

* `setConfig` models `HealthBridgeCard.setConfig` (including the in-place
  default-title write on the caller's object, which `this.config = config`
  then aliases);
* `updateCard` models `HealthBridgeCard.updateCard`, the full
  filter / group / render pass run on every `hass` assignment;
* JavaScript object-key iteration (`Object.keys`) is modelled faithfully:
  canonical array-index keys come first in ascending numeric order, the
  remaining string keys in insertion order;
* reading a missing key of the object literal `{}` is modelled faithfully:
  keys that collide with `Object.prototype` properties (`"toString"`,
  `"__proto__"`, ...) read as truthy inherited functions, so
  `userEntityMap[userId].push(entity_id)` throws a `TypeError`; this is the
  `Except.error` / `UpdateResult.threw` path;
* the regular expressions `/\(([^)]+)\)$/` (grouping-key extraction) and
  `/ \([^)]+\)$/` (display-name strip, `String.replace` with the first and
  only match) are embedded as the leftmost-match scans `parenScan` and
  `stripTail`.
-/

namespace HealthBridge

/-- Attributes of a Home Assistant entity state, as read by the card.
Absent attributes are `none`. -/
structure Attributes where
  friendly_name : Option String
  unit_of_measurement : Option String
  icon : Option String
deriving DecidableEq

/-- One entity state: `state` is the raw value string, `attributes` is the
attributes object (which malformed entities may lack). -/
structure EntityState where
  state : String
  attributes : Option Attributes
deriving DecidableEq

/-- The `hass.states` object: entity id keyed states, listed in property
insertion order (a JavaScript object cannot hold a key twice). -/
abbrev Snapshot := List (String × EntityState)

/-- A card configuration object: the `title` field (`none` when absent) and
any other own fields, which `setConfig` never touches. -/
structure Config where
  title : Option String
  extra : List (String × String)
deriving DecidableEq

/-- Model of `setConfig(config)` for an object argument: when
`config.title` is falsy (absent or the empty string) the code writes
`config.title = 'Health Bridge'` onto the caller's object, then stores the
very same object via `this.config = config`.  The returned value is that
shared object after the call. -/
def setConfig (config : Config) : Config :=
  match config.title with
  | none => { config with title := some "Health Bridge" }
  | some t => if t = "" then { config with title := some "Health Bridge" } else config

/-- A JavaScript argument to `setConfig`: `null`, `undefined`, or an
object. -/
inductive JSArg
  | jsNull
  | jsUndefined
  | jsObj (c : Config)
deriving DecidableEq

/-- Model of calling `setConfig` at the JavaScript level: reading
`config.title` of `null` or `undefined` throws a `TypeError`
(`Except.error`); an object argument runs `setConfig`. -/
def setConfigCall : JSArg → Except Unit Config
  | JSArg.jsNull => Except.error ()
  | JSArg.jsUndefined => Except.error ()
  | JSArg.jsObj c => Except.ok (setConfig c)

/-- Characters of the literal `'sensor.'` used by
`entity_id.startsWith('sensor.')`. -/
def sensorDot : List Char := "sensor.".data

/-- Model of `String.prototype.startsWith` on character lists. -/
def startsWithChars : List Char → List Char → Bool
  | [], _ => true
  | _ :: _, [] => false
  | p :: ps, c :: cs => p == c && startsWithChars ps cs

/-- Numeric value of a digit string (used only on all-digit keys). -/
def digitsToNat (cs : List Char) : Nat :=
  cs.foldl (fun a c => a * 10 + (c.toNat - 48)) 0

/-- Whether a string is a canonical array index in the JavaScript sense:
the canonical decimal form of an integer below 2^32 - 1.  Such object keys
are iterated first, in ascending numeric order. -/
def isCanonicalIndex : List Char → Bool
  | [] => false
  | c :: rest =>
      (c == '0' && rest.isEmpty) ||
      (c.isDigit && c != '0' && rest.all Char.isDigit &&
        digitsToNat (c :: rest) < 4294967295)

/-- Model of `Object.keys`: canonical array-index keys first in ascending
numeric order, then the remaining keys in insertion order. -/
def objectKeys (ks : List String) : List String :=
  List.insertionSort (fun a b => digitsToNat a.data ≤ digitsToNat b.data)
    (ks.filter (fun k => isCanonicalIndex k.data))
  ++ ks.filter (fun k => !isCanonicalIndex k.data)

/-- Property lookup `states[entity_id]` on the snapshot object. -/
def lookupState : Snapshot → String → Option EntityState
  | [], _ => none
  | (k, v) :: rest, id => if k = id then some v else lookupState rest id

/-- Entity state reached through `this._hass.states[entity_id]`; ids fed to
this come from `Object.keys(states)`, so the default is never reached. -/
def stateOf (ss : Snapshot) (id : String) : EntityState :=
  (lookupState ss id).getD { state := "", attributes := none }

/-- First filter of `updateCard`:
`entity_id.startsWith('sensor.') && entity_id.includes('_')`. -/
def passesShape (id : String) : Bool :=
  startsWithChars sensorDot id.data && id.data.contains '_'

/-- Second filter of `updateCard`:
`state && state.attributes && state.attributes.friendly_name &&
 state.attributes.friendly_name.includes('(')`
(the empty string is falsy). -/
def passesData (ss : Snapshot) (id : String) : Bool :=
  match lookupState ss id with
  | some st =>
    match st.attributes with
    | some attrs =>
      match attrs.friendly_name with
      | some fn => fn != "" && fn.data.contains '('
      | none => false
    | none => false
  | none => false

/-- The `healthBridgeEntities` list: snapshot keys in iteration order, put
through both filters. -/
def survivors (ss : Snapshot) : List String :=
  ((objectKeys (ss.map Prod.fst)).filter passesShape).filter (passesData ss)

/-- One attempt of the regex `/\(([^)]+)\)$/` at the head of the list: an
opening parenthesis, then a maximal nonempty run of characters other than
`')'`, then a closing parenthesis that ends the string.  Returns the
captured group. -/
def tryOpenParen (cs : List Char) : Option (List Char) :=
  match cs with
  | [] => none
  | c :: rest =>
    if c = '(' then
      let content := rest.takeWhile (fun x => x != ')')
      if content ≠ [] ∧ rest.drop content.length = [')'] then some content
      else none
    else none

/-- Leftmost match of `/\(([^)]+)\)$/`: the regex engine tries each start
position from the left. -/
def parenScan : List Char → Option (List Char)
  | [] => none
  | c :: cs =>
    match tryOpenParen (c :: cs) with
    | some g => some g
    | none => parenScan cs

/-- Grouping-key extraction `friendlyName.match(/\(([^)]+)\)$/)`, giving the
captured user id when the match exists (the capture is nonempty by `+`, so
the `matches[1]` truthiness test adds nothing). -/
def extractKey (fn : String) : Option String :=
  (parenScan fn.data).map (fun cs => String.mk cs)

/-- Head test of the strip regex `/ \([^)]+\)$/`: a space, an opening
parenthesis, a nonempty run without `')'`, then `')'` ending the string. -/
def tryStrip (cs : List Char) : Bool :=
  match cs with
  | c1 :: c2 :: rest =>
    decide (c1 = ' ') && decide (c2 = '(') &&
      (let content := rest.takeWhile (fun x => x != ')')
       decide (content ≠ []) && decide (rest.drop content.length = [')']))
  | _ => false

/-- Model of `friendlyName.replace(/ \([^)]+\)$/, '')`: the leftmost match
runs to the end of the string and is replaced by nothing, so the characters
before it remain. -/
def stripTail : List Char → List Char
  | [] => []
  | c :: cs => if tryStrip (c :: cs) then [] else c :: stripTail cs

/-- Display name of a metric: the friendly name with the trailing
parenthetical (and its separating space) removed. -/
def metricName (fn : String) : String := String.mk (stripTail fn.data)

/-- One rendered metric card: icon, raw value, display name, and the unit
element (`none` when the unit line is omitted). -/
structure MetricCard where
  icon : String
  value : String
  name : String
  unitText : Option String
deriving DecidableEq

/-- Default attributes object used only for unreachable lookups (filtered
entities always carry attributes). -/
def emptyAttrs : Attributes :=
  { friendly_name := none, unit_of_measurement := none, icon := none }

/-- Rendering of one metric card from an entity state, as in the inner
`forEach` of `updateCard`: `unit_of_measurement || ''` with the unit line
rendered only `if (unit)`, and `icon || 'mdi:help-circle'`. -/
def renderCard (st : EntityState) : MetricCard :=
  let attrs := st.attributes.getD emptyAttrs
  let fn := attrs.friendly_name.getD ""
  let unitRaw := attrs.unit_of_measurement.getD ""
  let iconRaw := attrs.icon.getD ""
  { icon := if iconRaw = "" then "mdi:help-circle" else iconRaw
    value := st.state
    name := metricName fn
    unitText := if unitRaw = "" then none else some unitRaw }

/-- The `userEntityMap` object: grouping keys to entity-id arrays, in key
insertion order. -/
abbrev GroupMap := List (String × List String)

/-- Own-property read `userEntityMap[k]`. -/
def lookupGroup : GroupMap → String → Option (List String)
  | [], _ => none
  | (k, v) :: rest, u => if k = u then some v else lookupGroup rest u

/-- In-place update of an existing own property (array push). -/
def setGroup : GroupMap → String → List String → GroupMap
  | [], _, _ => []
  | (k, v) :: rest, u, ids =>
      if k = u then (k, ids) :: rest else (k, v) :: setGroup rest u ids

/-- Own property names of `Object.prototype`.  Reading one of these keys on
the object literal `{}` yields the inherited (truthy) property, so
`!userEntityMap[userId]` is false and the subsequent `.push` throws a
`TypeError`. -/
def protoProps : List String :=
  ["constructor", "hasOwnProperty", "isPrototypeOf", "propertyIsEnumerable",
   "toLocaleString", "toString", "valueOf",
   "__defineGetter__", "__defineSetter__", "__lookupGetter__",
   "__lookupSetter__", "__proto__"]

/-- Friendly name string read in the grouping `forEach`
(`state.attributes.friendly_name`); survivors always have one. -/
def friendlyOf (ss : Snapshot) (id : String) : String :=
  (((stateOf ss id).attributes.getD emptyAttrs).friendly_name.getD "")

/-- Grouping key of a surviving entity, when its friendly name matches the
extraction regex. -/
def keyOf (ss : Snapshot) (id : String) : Option String :=
  extractKey (friendlyOf ss id)

/-- Model of the grouping `forEach` over `healthBridgeEntities`: skip
entities without a key; push onto an existing own array; create a new entry
for a fresh key, unless the key is inherited from `Object.prototype`, in
which case the render throws. -/
def buildMap (ss : Snapshot) : List String → GroupMap → Except Unit GroupMap
  | [], m => Except.ok m
  | id :: rest, m =>
    match keyOf ss id with
    | none => buildMap ss rest m
    | some k =>
      match lookupGroup m k with
      | some ids => buildMap ss rest (setGroup m k (ids ++ [id]))
      | none =>
        if k ∈ protoProps then Except.error ()
        else buildMap ss rest (m ++ [(k, [id])])

/-- One rendered per-user section: the grouping key shown in the
`User: ...` header, and the metric cards of its grid. -/
structure UserSection where
  userId : String
  cards : List MetricCard
deriving DecidableEq

/-- One user section as rendered from the group map: the key as `userId`,
and a card for each entity id of the group's array, in array order. -/
def mkSection (ss : Snapshot) (m : GroupMap) (u : String) : UserSection :=
  { userId := u
    cards := ((lookupGroup m u).getD []).map (fun id => renderCard (stateOf ss id)) }

/-- Model of the rendering `forEach` over `Object.keys(userEntityMap)`. -/
def renderSections (ss : Snapshot) (m : GroupMap) : List UserSection :=
  (objectKeys (m.map Prod.fst)).map (mkSection ss m)

/-- Text of the no-data placeholder element. -/
def placeholderText : String :=
  "No health data available. Set up Health Bridge integration and start receiving data."

/-- Content rendered below the title header: either the placeholder element
or the list of user sections. -/
inductive Body
  | placeholder (msg : String)
  | sections (secs : List UserSection)
deriving DecidableEq

/-- State of the card's `content` element: untouched, or rebuilt with a
header and a body. -/
inductive RenderedContent
  | empty
  | rendered (header : String) (body : Body)
deriving DecidableEq

/-- Result of one `updateCard` call: a normal return with the final content,
or a thrown `TypeError` leaving the partially built content (the header is
appended before grouping starts, sections only after it finishes). -/
inductive UpdateResult
  | ok (content : RenderedContent)
  | threw (content : RenderedContent)
deriving DecidableEq

/-- Header text rendered from the stored config
(`header.textContent = this.config.title`; `textContent = undefined` would
print `"undefined"`, though `setConfig` never stores that). -/
def titleText (cfg : Config) : String := cfg.title.getD "undefined"

/-- Model of `updateCard()`: bail out when `_hass` or `config` is unset;
otherwise clear the content, render the header, filter, either render the
placeholder or group and render the sections. -/
def updateCard (hass : Option Snapshot) (config : Option Config)
    (prev : RenderedContent) : UpdateResult :=
  match hass, config with
  | some ss, some cfg =>
    if survivors ss = [] then
      UpdateResult.ok (RenderedContent.rendered (titleText cfg)
        (Body.placeholder placeholderText))
    else
      match buildMap ss (survivors ss) [] with
      | Except.error _ =>
          UpdateResult.threw (RenderedContent.rendered (titleText cfg)
            (Body.sections []))
      | Except.ok m =>
          UpdateResult.ok (RenderedContent.rendered (titleText cfg)
            (Body.sections (renderSections ss m)))
  | some _, none => UpdateResult.ok prev
  | none, _ => UpdateResult.ok prev

/-- Content left in the card after a call, whether or not it threw. -/
def contentOf : UpdateResult → RenderedContent
  | UpdateResult.ok c => c
  | UpdateResult.threw c => c

/-- Whether the call returned normally. -/
def isOk : UpdateResult → Bool
  | UpdateResult.ok _ => true
  | UpdateResult.threw _ => false

/-- Header of a rendered content, when one was rendered. -/
def headerOf : UpdateResult → Option String
  | UpdateResult.ok (RenderedContent.rendered h _) => some h
  | UpdateResult.threw (RenderedContent.rendered h _) => some h
  | _ => none

/-- Key/id pairs produced by a list of entity ids: ids without a grouping
key are skipped. -/
def pairsOf (ss : Snapshot) (ids : List String) : List (String × String) :=
  ids.filterMap (fun id => (keyOf ss id).map (fun k => (k, id)))

/-- The surviving entities that yield a grouping key, paired with their
keys, in snapshot iteration order (the contributors to the group map). -/
def contribs (ss : Snapshot) : List (String × String) :=
  pairsOf ss (survivors ss)

/-- Ids contributed to the group of key `u`, in contribution order. -/
def pend (u : String) (l : List (String × String)) : List String :=
  (l.filter (fun p => p.1 == u)).map Prod.snd

/-- Keys of a pair list with only the first occurrence of each key kept, in
first-seen order. -/
def firstSeen (ks : List String) : List String :=
  ks.foldl (fun acc k => if k ∈ acc then acc else acc ++ [k]) []

/-- Pure (exception-free) single grouping step: push onto the existing
entry, or append a fresh one. -/
def insertKV (m : GroupMap) (k : String) (id : String) : GroupMap :=
  match lookupGroup m k with
  | some ids => setGroup m k (ids ++ [id])
  | none => m ++ [(k, [id])]

/-- Pure grouping of a key/id pair list, used to characterise `buildMap`
when no key collides with `Object.prototype`. -/
def groupAll (l : List (String × String)) (m : GroupMap) : GroupMap :=
  match l with
  | [] => m
  | (k, id) :: rest => groupAll rest (insertKV m k id)

/-- Snapshot with one entity's entry removed (a comparison snapshot, used
to state that an entity's presence is immaterial). -/
def dropEntity (ss : Snapshot) (id : String) : Snapshot :=
  ss.filter (fun p => p.1 != id)

/-! ### Lemmas about the embedded regular expressions -/

theorem takeWhile_append_last (p : Char → Bool) (u : List Char) (x : Char)
    (t : List Char) (hu : ∀ c ∈ u, p c = true) (hx : p x = false) :
    (u ++ x :: t).takeWhile p = u := by
  induction u with
  | nil => simp [List.takeWhile_cons, hx]
  | cons a u ih =>
    have ha : p a = true := hu a (by simp)
    simp [List.takeWhile_cons, ha]
    exact ih (fun c hc => hu c (by simp [hc]))

theorem tryOpenParen_not_open (c : Char) (cs : List Char) (h : c ≠ '(') :
    tryOpenParen (c :: cs) = none := by
  simp [tryOpenParen, h]

theorem tryOpenParen_hit (u : List Char) (hne : u ≠ [])
    (hc : ∀ c ∈ u, c ≠ ')') :
    tryOpenParen ('(' :: (u ++ [')'])) = some u := by
  have ht : (u ++ [')']).takeWhile (fun x => x != ')') = u := by
    refine takeWhile_append_last _ u ')' [] (fun c hcm => ?_) (by simp)
    simpa using hc c hcm
  simp [tryOpenParen, ht, hne, List.drop_left]

theorem parenScan_append (pre l : List Char) (h : ∀ c ∈ pre, c ≠ '(') :
    parenScan (pre ++ l) = parenScan l := by
  induction pre with
  | nil => rfl
  | cons a pre ih =>
    have ha : a ≠ '(' := h a (by simp)
    have := ih (fun c hc => h c (by simp [hc]))
    simpa [parenScan, tryOpenParen_not_open a _ ha] using this

theorem parenScan_hit (u : List Char) (hne : u ≠ [])
    (hc : ∀ c ∈ u, c ≠ ')') :
    parenScan ('(' :: (u ++ [')'])) = some u := by
  simp [parenScan, tryOpenParen_hit u hne hc]

theorem extractKey_canonical (name user : String)
    (hn : ∀ c ∈ name.data, c ≠ '(')
    (hu : user.data ≠ []) (hc : ∀ c ∈ user.data, c ≠ ')') :
    extractKey (name ++ " (" ++ user ++ ")") = some user := by
  have hsep : (" (" : String).data = [' ', '('] := by decide
  have hcl : (")" : String).data = [')'] := by decide
  have hd : (name ++ " (" ++ user ++ ")").data
      = (name.data ++ [' ']) ++ ('(' :: (user.data ++ [')'])) := by
    simp [String.data_append, hsep, hcl]
  have hpre : ∀ c ∈ name.data ++ [' '], c ≠ '(' := by
    intro c hcm
    rcases List.mem_append.mp hcm with h1 | h1
    · exact hn c h1
    · simp at h1; subst h1; decide
  unfold extractKey
  rw [hd, parenScan_append _ _ hpre, parenScan_hit user.data hu hc]
  rfl

theorem tryStrip_not_open (c1 c2 : Char) (rest : List Char) (h : c2 ≠ '(') :
    tryStrip (c1 :: c2 :: rest) = false := by
  simp [tryStrip, h]

theorem tryStrip_hit (u : List Char) (hne : u ≠ [])
    (hc : ∀ c ∈ u, c ≠ ')') :
    tryStrip (' ' :: '(' :: (u ++ [')'])) = true := by
  have ht : (u ++ [')']).takeWhile (fun x => x != ')') = u := by
    refine takeWhile_append_last _ u ')' [] (fun c hcm => ?_) (by simp)
    simpa using hc c hcm
  simp [tryStrip, ht, hne, List.drop_left]

theorem stripTail_strips (n u : List Char) (hn : ∀ c ∈ n, c ≠ '(')
    (hu : u ≠ []) (hc : ∀ c ∈ u, c ≠ ')') :
    stripTail (n ++ (' ' :: '(' :: (u ++ [')']))) = n := by
  induction n with
  | nil => simp [stripTail, tryStrip_hit u hu hc]
  | cons a n ih =>
    have hfalse : tryStrip (a :: (n ++ (' ' :: '(' :: (u ++ [')'])))) = false := by
      cases n with
      | nil => exact tryStrip_not_open a ' ' _ (by decide)
      | cons b n' => exact tryStrip_not_open a b _ (hn b (by simp))
    have := ih (fun c hcm => hn c (by simp [hcm]))
    simp [stripTail, hfalse]
    exact this

theorem metricName_canonical (name user : String)
    (hn : ∀ c ∈ name.data, c ≠ '(')
    (hu : user.data ≠ []) (hc : ∀ c ∈ user.data, c ≠ ')') :
    metricName (name ++ " (" ++ user ++ ")") = name := by
  have hsep : (" (" : String).data = [' ', '('] := by decide
  have hcl : (")" : String).data = [')'] := by decide
  have hd : (name ++ " (" ++ user ++ ")").data
      = name.data ++ (' ' :: '(' :: (user.data ++ [')'])) := by
    simp [String.data_append, hsep, hcl]
  unfold metricName
  rw [hd, stripTail_strips name.data user.data hn hu hc]

theorem tryOpenParen_props (cs g : List Char) (h : tryOpenParen cs = some g) :
    g ≠ [] ∧ (∀ c ∈ g, c ≠ ')') ∧ '(' ∈ cs := by
  cases cs with
  | nil => exact Option.noConfusion h
  | cons c rest =>
    simp only [tryOpenParen] at h
    split at h
    · rename_i hc
      split at h
      · rename_i hcond
        cases h
        refine ⟨hcond.1, fun x hx => ?_, by simp [hc]⟩
        have := List.mem_takeWhile_imp hx
        simpa using this
      · exact Option.noConfusion h
    · exact Option.noConfusion h

theorem parenScan_props (l g : List Char) (h : parenScan l = some g) :
    g ≠ [] ∧ (∀ c ∈ g, c ≠ ')') ∧ '(' ∈ l := by
  induction l with
  | nil => simp [parenScan] at h
  | cons c cs ih =>
    unfold parenScan at h
    cases htr : tryOpenParen (c :: cs) with
    | some g' =>
      rw [htr] at h
      cases h
      exact tryOpenParen_props _ _ htr
    | none =>
      rw [htr] at h
      have := ih h
      exact ⟨this.1, this.2.1, by simp [this.2.2]⟩

theorem extractKey_props (fn k : String) (h : extractKey fn = some k) :
    k.data ≠ [] ∧ (∀ c ∈ k.data, c ≠ ')') ∧ '(' ∈ fn.data := by
  unfold extractKey at h
  cases hs : parenScan fn.data with
  | none => rw [hs] at h; simp at h
  | some g =>
    rw [hs] at h
    simp at h
    have hp := parenScan_props _ _ hs
    rw [← h]
    exact hp

theorem extractKey_empty_parens (p : String) (hp : ∀ c ∈ p.data, c ≠ '(') :
    extractKey (p ++ "()") = none := by
  have hd : (p ++ "()").data = p.data ++ ['(', ')'] := by
    have : ("()" : String).data = ['(', ')'] := by decide
    simp [String.data_append, this]
  unfold extractKey
  rw [hd, parenScan_append _ _ hp]
  decide

/-! ### Lemmas about object property lookup -/

theorem lookupState_eq_of_mem (ss : Snapshot) (id : String) (e : EntityState)
    (hnd : (ss.map Prod.fst).Nodup) (hmem : (id, e) ∈ ss) :
    lookupState ss id = some e := by
  induction ss with
  | nil => cases hmem
  | cons p rest ih =>
    obtain ⟨k, v⟩ := p
    have hnd2 : k ∉ rest.map Prod.fst ∧ (rest.map Prod.fst).Nodup := by
      rw [List.map_cons] at hnd
      exact List.nodup_cons.mp hnd
    rcases List.mem_cons.mp hmem with h1 | h1
    · cases h1
      simp [lookupState]
    · have hk : k ≠ id := by
        intro hkid
        apply hnd2.1
        rw [hkid]
        exact List.mem_map.mpr ⟨(id, e), h1, rfl⟩
      simp [lookupState, hk]
      exact ih hnd2.2 h1

theorem lookupState_filter (ss : Snapshot) (q : String × EntityState → Bool)
    (id' : String) (hq : ∀ v, q (id', v) = true) :
    lookupState (ss.filter q) id' = lookupState ss id' := by
  induction ss with
  | nil => rfl
  | cons p rest ih =>
    obtain ⟨k, v⟩ := p
    by_cases hk : k = id'
    · subst hk
      rw [List.filter_cons, hq v]
      simp [lookupState]
    · rw [List.filter_cons]
      by_cases hkeep : q (k, v) = true
      · rw [hkeep]
        simp [lookupState, hk, ih]
      · rw [Bool.not_eq_true] at hkeep
        rw [hkeep]
        simp [lookupState, hk, ih]

theorem lookupState_dropEntity (ss : Snapshot) (id id' : String)
    (h : id' ≠ id) :
    lookupState (dropEntity ss id) id' = lookupState ss id' :=
  lookupState_filter ss _ id' (fun v => by simp [h])

theorem lookupGroup_none_iff (m : GroupMap) (k : String) :
    lookupGroup m k = none ↔ k ∉ m.map Prod.fst := by
  induction m with
  | nil => simp [lookupGroup]
  | cons p rest ih =>
    obtain ⟨k', v⟩ := p
    rw [List.map_cons, List.mem_cons]
    by_cases hk : k' = k
    · subst hk
      simp [lookupGroup]
    · have hstep : lookupGroup ((k', v) :: rest) k = lookupGroup rest k := by
        simp [lookupGroup, hk]
      rw [hstep, ih]
      constructor
      · intro hnot hor
        rcases hor with h1 | h1
        · exact hk h1.symm
        · exact hnot h1
      · intro hnot h1
        exact hnot (Or.inr h1)

theorem lookupGroup_mem (m : GroupMap) (k : String) (v : List String)
    (h : lookupGroup m k = some v) : (k, v) ∈ m := by
  induction m with
  | nil => exact absurd h (by simp [lookupGroup])
  | cons p rest ih =>
    obtain ⟨k', v'⟩ := p
    by_cases hk : k' = k
    · subst hk
      rw [show lookupGroup ((k', v') :: rest) k' = some v' from by
        simp [lookupGroup]] at h
      cases h
      exact List.mem_cons_self _ _
    · rw [show lookupGroup ((k', v') :: rest) k = lookupGroup rest k from by
        simp [lookupGroup, hk]] at h
      exact List.mem_cons_of_mem _ (ih h)

theorem lookupGroup_append_none (m m' : GroupMap) (k : String)
    (h : lookupGroup m k = none) :
    lookupGroup (m ++ m') k = lookupGroup m' k := by
  induction m with
  | nil => rfl
  | cons p rest ih =>
    obtain ⟨k', v⟩ := p
    by_cases hk : k' = k
    · simp [lookupGroup, hk] at h
    · simp [lookupGroup, hk] at h ⊢
      exact ih h

theorem lookupGroup_append_some (m m' : GroupMap) (k : String)
    (v : List String) (h : lookupGroup m k = some v) :
    lookupGroup (m ++ m') k = some v := by
  induction m with
  | nil => simp [lookupGroup] at h
  | cons p rest ih =>
    obtain ⟨k', v'⟩ := p
    by_cases hk : k' = k
    · simp [lookupGroup, hk] at h ⊢
      exact h
    · simp [lookupGroup, hk] at h ⊢
      exact ih h

theorem setGroup_keys (m : GroupMap) (k : String) (v : List String) :
    (setGroup m k v).map Prod.fst = m.map Prod.fst := by
  induction m with
  | nil => rfl
  | cons p rest ih =>
    obtain ⟨k', v'⟩ := p
    by_cases hk : k' = k
    · simp [setGroup, hk]
    · simp [setGroup, hk, ih]

theorem lookupGroup_setGroup_self (m : GroupMap) (k : String)
    (v w : List String) (h : lookupGroup m k = some w) :
    lookupGroup (setGroup m k v) k = some v := by
  induction m with
  | nil => simp [lookupGroup] at h
  | cons p rest ih =>
    obtain ⟨k', v'⟩ := p
    by_cases hk : k' = k
    · simp [setGroup, lookupGroup, hk]
    · simp [lookupGroup, hk] at h
      simp [setGroup, lookupGroup, hk]
      exact ih h

theorem lookupGroup_setGroup_ne (m : GroupMap) (k u : String)
    (v : List String) (h : u ≠ k) :
    lookupGroup (setGroup m k v) u = lookupGroup m u := by
  induction m with
  | nil => rfl
  | cons p rest ih =>
    obtain ⟨k', v'⟩ := p
    by_cases hk : k' = k
    · subst hk
      have hku : k' ≠ u := fun hh => h hh.symm
      simp [setGroup, lookupGroup, hku]
    · simp [setGroup, lookupGroup, hk]
      by_cases hu : k' = u
      · simp [lookupGroup, hu]
      · simp [lookupGroup, hu, ih]

/-! ### Lemmas about key iteration order and the two filters -/

theorem filter_pair {α : Type} (p q : α → Bool) (l : List α) :
    (l.filter p).filter q = l.filter (fun a => p a && q a) := by
  induction l with
  | nil => rfl
  | cons a t ih =>
    cases hp : p a <;> cases hq : q a <;>
      simp [List.filter_cons, hp, hq, ih]

theorem filter_map_comm {α β : Type} (f : α → β) (p : β → Bool) (l : List α) :
    (l.map f).filter p = (l.filter (fun x => p (f x))).map f := by
  induction l with
  | nil => rfl
  | cons a t ih =>
    cases hp : p (f a) <;> simp [List.filter_cons, hp, ih]

theorem passesShape_head (k : String) (h : passesShape k = true) :
    ∃ rest, k.data = 's' :: rest := by
  unfold passesShape at h
  simp only [Bool.and_eq_true] at h
  have h1 : startsWithChars sensorDot k.data = true := h.1
  have hsd : sensorDot = 's' :: ('e' :: 'n' :: 's' :: 'o' :: 'r' :: '.' :: []) := by
    decide
  rw [hsd] at h1
  cases hd : k.data with
  | nil =>
    rw [hd] at h1
    exact absurd h1 (by simp [startsWithChars])
  | cons c cs =>
    rw [hd] at h1
    have h2 : ('s' == c) = true := by
      simp only [startsWithChars, Bool.and_eq_true] at h1
      exact h1.1
    have h3 : c = 's' := (eq_of_beq h2).symm
    exact ⟨cs, by rw [h3]⟩

theorem shape_not_canonical (k : String) (h : passesShape k = true) :
    isCanonicalIndex k.data = false := by
  obtain ⟨rest, hd⟩ := passesShape_head k h
  rw [hd]
  have h1 : ('s' == '0') = false := by decide
  have h2 : 's'.isDigit = false := by decide
  simp [isCanonicalIndex, h1, h2]

theorem objectKeys_perm (ks : List String) : List.Perm (objectKeys ks) ks := by
  unfold objectKeys
  refine List.Perm.trans
    ((List.perm_insertionSort _ _).append_right _) ?_
  exact List.filter_append_perm _ ks

theorem objectKeys_no_canonical (ks : List String)
    (h : ∀ k ∈ ks, isCanonicalIndex k.data = false) : objectKeys ks = ks := by
  unfold objectKeys
  have h1 : ks.filter (fun k => isCanonicalIndex k.data) = [] :=
    List.filter_eq_nil_iff.mpr (fun a ha => by simp [h a ha])
  have h2 : ks.filter (fun k => !isCanonicalIndex k.data) = ks :=
    List.filter_eq_self.mpr (fun a ha => by simp [h a ha])
  rw [h1, h2]
  rfl

theorem survivors_eq (ss : Snapshot) :
    survivors ss = (ss.map Prod.fst).filter
      (fun id => passesShape id && passesData ss id) := by
  unfold survivors
  rw [filter_pair]
  unfold objectKeys
  rw [List.filter_append]
  have hA : (List.insertionSort
      (fun a b => digitsToNat a.data ≤ digitsToNat b.data)
      ((ss.map Prod.fst).filter (fun k => isCanonicalIndex k.data))).filter
        (fun id => passesShape id && passesData ss id) = [] := by
    refine List.filter_eq_nil_iff.mpr (fun a ha => ?_)
    have hmem : a ∈ (ss.map Prod.fst).filter (fun k => isCanonicalIndex k.data) :=
      (List.perm_insertionSort _ _).mem_iff.mp ha
    have hcan : isCanonicalIndex a.data = true := (List.mem_filter.mp hmem).2
    have hshape : passesShape a = false := by
      cases hps : passesShape a
      · rfl
      · rw [shape_not_canonical a hps] at hcan
        cases hcan
    simp [hshape]
  have hB : ((ss.map Prod.fst).filter (fun k => !isCanonicalIndex k.data)).filter
      (fun id => passesShape id && passesData ss id)
      = (ss.map Prod.fst).filter (fun id => passesShape id && passesData ss id) := by
    rw [filter_pair]
    refine List.filter_congr (fun k _ => ?_)
    cases hps : passesShape k
    · simp [hps]
    · simp [hps, shape_not_canonical k hps]
  rw [hA, hB]
  rfl

theorem filter_beq_single (l : List String) (u : String) (hnd : l.Nodup)
    (hmem : u ∈ l) : l.filter (fun x => x == u) = [u] := by
  induction l with
  | nil => cases hmem
  | cons a t ih =>
    have hnd2 := List.nodup_cons.mp hnd
    by_cases ha : a = u
    · subst ha
      have ht : t.filter (fun x => x == a) = [] := by
        refine List.filter_eq_nil_iff.mpr (fun b hb => ?_)
        intro hbeq
        exact hnd2.1 (by rw [eq_of_beq hbeq] at hb; exact hb)
      simp [List.filter_cons, ht]
    · have hm : u ∈ t := by
        rcases List.mem_cons.mp hmem with h1 | h1
        · exact absurd h1.symm ha
        · exact h1
      have hbeq : (a == u) = false := by simp [ha]
      simp [List.filter_cons, hbeq]
      exact ih hnd2.2 hm

theorem survivors_nodup (ss : Snapshot) (hnd : (ss.map Prod.fst).Nodup) :
    (survivors ss).Nodup := by
  rw [survivors_eq]
  exact hnd.filter _

/-! ### Lemmas about the grouping pass -/

theorem buildMap_cons_none (ss : Snapshot) (id : String) (rest : List String)
    (m : GroupMap) (h : keyOf ss id = none) :
    buildMap ss (id :: rest) m = buildMap ss rest m := by
  simp [buildMap, h]

theorem buildMap_cons_push (ss : Snapshot) (id : String) (rest : List String)
    (m : GroupMap) (k : String) (ids0 : List String)
    (h : keyOf ss id = some k) (hl : lookupGroup m k = some ids0) :
    buildMap ss (id :: rest) m = buildMap ss rest (setGroup m k (ids0 ++ [id])) := by
  simp [buildMap, h, hl]

theorem buildMap_cons_fresh (ss : Snapshot) (id : String) (rest : List String)
    (m : GroupMap) (k : String)
    (h : keyOf ss id = some k) (hl : lookupGroup m k = none)
    (hp : k ∉ protoProps) :
    buildMap ss (id :: rest) m = buildMap ss rest (m ++ [(k, [id])]) := by
  simp [buildMap, h, hl, hp]

theorem buildMap_cons_proto (ss : Snapshot) (id : String) (rest : List String)
    (m : GroupMap) (k : String)
    (h : keyOf ss id = some k) (hl : lookupGroup m k = none)
    (hp : k ∈ protoProps) :
    buildMap ss (id :: rest) m = Except.error () := by
  simp [buildMap, h, hl, hp]

theorem pairsOf_cons_none (ss : Snapshot) (id : String) (rest : List String)
    (h : keyOf ss id = none) :
    pairsOf ss (id :: rest) = pairsOf ss rest := by
  simp [pairsOf, List.filterMap_cons, h]

theorem pairsOf_cons_some (ss : Snapshot) (id : String) (rest : List String)
    (k : String) (h : keyOf ss id = some k) :
    pairsOf ss (id :: rest) = (k, id) :: pairsOf ss rest := by
  simp [pairsOf, List.filterMap_cons, h]

theorem buildMap_eq_groupAll (ss : Snapshot) (ids : List String) (m : GroupMap)
    (h : ∀ p ∈ pairsOf ss ids, p.1 ∉ protoProps) :
    buildMap ss ids m = Except.ok (groupAll (pairsOf ss ids) m) := by
  induction ids generalizing m with
  | nil => rfl
  | cons id rest ih =>
    cases hk : keyOf ss id with
    | none =>
      rw [pairsOf_cons_none ss id rest hk] at h ⊢
      rw [buildMap_cons_none ss id rest m hk]
      exact ih m h
    | some k =>
      rw [pairsOf_cons_some ss id rest k hk] at h ⊢
      have hknp : k ∉ protoProps := h (k, id) (by simp)
      have hrest : ∀ p ∈ pairsOf ss rest, p.1 ∉ protoProps :=
        fun p hp => h p (List.mem_cons_of_mem _ hp)
      cases hl : lookupGroup m k with
      | some ids0 =>
        rw [buildMap_cons_push ss id rest m k ids0 hk hl]
        rw [show groupAll ((k, id) :: pairsOf ss rest) m
            = groupAll (pairsOf ss rest) (setGroup m k (ids0 ++ [id])) from by
          simp [groupAll, insertKV, hl]]
        exact ih _ hrest
      | none =>
        rw [buildMap_cons_fresh ss id rest m k hk hl hknp]
        rw [show groupAll ((k, id) :: pairsOf ss rest) m
            = groupAll (pairsOf ss rest) (m ++ [(k, [id])]) from by
          simp [groupAll, insertKV, hl]]
        exact ih _ hrest

theorem lookupGroup_groupAll (l : List (String × String)) (m : GroupMap)
    (u : String) :
    lookupGroup (groupAll l m) u =
      match lookupGroup m u with
      | some ids => some (ids ++ pend u l)
      | none => if pend u l = [] then none else some (pend u l) := by
  induction l generalizing m with
  | nil =>
    cases h : lookupGroup m u <;> simp [groupAll, pend, h]
  | cons p rest ih =>
    obtain ⟨k, id⟩ := p
    by_cases hku : k = u
    · subst hku
      have hpend : pend k ((k, id) :: rest) = id :: pend k rest := by
        simp [pend, List.filter_cons]
      cases hl : lookupGroup m k with
      | some ids0 =>
        rw [show groupAll ((k, id) :: rest) m
            = groupAll rest (setGroup m k (ids0 ++ [id])) from by
          simp [groupAll, insertKV, hl]]
        rw [ih, lookupGroup_setGroup_self m k _ _ hl]
        simp [hl, hpend, List.append_assoc]
      | none =>
        rw [show groupAll ((k, id) :: rest) m
            = groupAll rest (m ++ [(k, [id])]) from by
          simp [groupAll, insertKV, hl]]
        have hlook : lookupGroup (m ++ [(k, [id])]) k = some [id] := by
          rw [lookupGroup_append_none m _ k hl]
          simp [lookupGroup]
        rw [ih, hlook]
        simp [hl, hpend]
    · have hpend : pend u ((k, id) :: rest) = pend u rest := by
        have hb : ((k, id).1 == u) = false := by simp [hku]
        simp [pend, List.filter_cons, hb]
      cases hl : lookupGroup m k with
      | some ids0 =>
        rw [show groupAll ((k, id) :: rest) m
            = groupAll rest (setGroup m k (ids0 ++ [id])) from by
          simp [groupAll, insertKV, hl]]
        rw [ih, lookupGroup_setGroup_ne m k u _ (fun hh => hku hh.symm), hpend]
      | none =>
        rw [show groupAll ((k, id) :: rest) m
            = groupAll rest (m ++ [(k, [id])]) from by
          simp [groupAll, insertKV, hl]]
        have hlook : lookupGroup (m ++ [(k, [id])]) u = lookupGroup m u := by
          cases hmu : lookupGroup m u with
          | some v => rw [lookupGroup_append_some m _ u v hmu]
          | none =>
            rw [lookupGroup_append_none m _ u hmu]
            simp [lookupGroup, hku]
        rw [ih, hlook, hpend]

theorem lookupGroup_groupAll_nil (l : List (String × String)) (u : String) :
    lookupGroup (groupAll l []) u
      = if pend u l = [] then none else some (pend u l) := by
  rw [lookupGroup_groupAll]
  rfl

theorem mem_keys_groupAll (l : List (String × String)) (u : String) :
    u ∈ (groupAll l []).map Prod.fst ↔ pend u l ≠ [] := by
  constructor
  · intro hm hp
    have hiff := lookupGroup_none_iff (groupAll l []) u
    rw [lookupGroup_groupAll_nil, if_pos hp] at hiff
    exact (hiff.mp rfl) hm
  · intro hp
    by_contra hm
    have hnone := (lookupGroup_none_iff (groupAll l []) u).mpr hm
    rw [lookupGroup_groupAll_nil, if_neg hp] at hnone
    cases hnone

theorem groupAll_keys (l : List (String × String)) (m : GroupMap) :
    (groupAll l m).map Prod.fst =
      (l.map Prod.fst).foldl
        (fun acc k => if k ∈ acc then acc else acc ++ [k]) (m.map Prod.fst) := by
  induction l generalizing m with
  | nil => rfl
  | cons p rest ih =>
    obtain ⟨k, id⟩ := p
    cases hl : lookupGroup m k with
    | some ids0 =>
      have hmem : k ∈ m.map Prod.fst := by
        by_contra hnm
        rw [(lookupGroup_none_iff m k).mpr hnm] at hl
        cases hl
      rw [show groupAll ((k, id) :: rest) m
          = groupAll rest (setGroup m k (ids0 ++ [id])) from by
        simp [groupAll, insertKV, hl]]
      rw [ih, setGroup_keys]
      simp [hmem]
    | none =>
      have hmem : k ∉ m.map Prod.fst := (lookupGroup_none_iff m k).mp hl
      rw [show groupAll ((k, id) :: rest) m
          = groupAll rest (m ++ [(k, [id])]) from by
        simp [groupAll, insertKV, hl]]
      rw [ih]
      simp [hmem]

theorem foldl_firstSeen_nodup (ks : List String) (acc : List String)
    (h : acc.Nodup) :
    (ks.foldl (fun acc k => if k ∈ acc then acc else acc ++ [k]) acc).Nodup := by
  induction ks generalizing acc with
  | nil => exact h
  | cons k rest ih =>
    rw [List.foldl_cons]
    by_cases hm : k ∈ acc
    · simp only [if_pos hm]
      exact ih _ h
    · simp only [if_neg hm]
      refine ih _ ?_
      simp [List.nodup_append, h, hm]

theorem groupAll_keys_nodup (l : List (String × String)) :
    ((groupAll l []).map Prod.fst).Nodup := by
  rw [groupAll_keys]
  exact foldl_firstSeen_nodup _ _ List.nodup_nil

theorem groupAll_keys_firstSeen (l : List (String × String)) :
    (groupAll l []).map Prod.fst = firstSeen (l.map Prod.fst) := by
  rw [groupAll_keys]
  rfl

theorem foldl_firstSeen_mem (ks : List String) (x : String) :
    ∀ acc, x ∈ ks.foldl
      (fun acc k => if k ∈ acc then acc else acc ++ [k]) acc →
      x ∈ acc ∨ x ∈ ks := by
  induction ks with
  | nil => intro acc hacc; exact Or.inl hacc
  | cons k rest ih =>
    intro acc hacc
    rw [List.foldl_cons] at hacc
    by_cases hm : k ∈ acc
    · rw [if_pos hm] at hacc
      rcases ih acc hacc with h1 | h1
      · exact Or.inl h1
      · exact Or.inr (List.mem_cons_of_mem _ h1)
    · rw [if_neg hm] at hacc
      rcases ih _ hacc with h1 | h1
      · rcases List.mem_append.mp h1 with h2 | h2
        · exact Or.inl h2
        · simp at h2
          exact Or.inr (by simp [h2])
      · exact Or.inr (List.mem_cons_of_mem _ h1)

theorem firstSeen_subset (ks : List String) (x : String)
    (h : x ∈ firstSeen ks) : x ∈ ks := by
  unfold firstSeen at h
  rcases foldl_firstSeen_mem ks x [] h with h1 | h1
  · cases h1
  · exact h1

theorem setGroup_mem (m : GroupMap) (k : String) (v : List String)
    (q : String × List String) (h : q ∈ setGroup m k v) :
    q ∈ m ∨ (q.1 = k ∧ q.2 = v) := by
  induction m with
  | nil => cases h
  | cons p rest ih =>
    obtain ⟨k', v'⟩ := p
    by_cases hk : k' = k
    · rw [show setGroup ((k', v') :: rest) k v = (k', v) :: rest from by
        simp [setGroup, hk]] at h
      rcases List.mem_cons.mp h with h1 | h1
      · rw [h1]
        exact Or.inr ⟨hk, rfl⟩
      · exact Or.inl (List.mem_cons_of_mem _ h1)
    · rw [show setGroup ((k', v') :: rest) k v = (k', v') :: setGroup rest k v from by
        simp [setGroup, hk]] at h
      rcases List.mem_cons.mp h with h1 | h1
      · exact Or.inl (by simp [h1])
      · rcases ih h1 with h2 | h2
        · exact Or.inl (List.mem_cons_of_mem _ h2)
        · exact Or.inr h2

theorem buildMap_ok_values (ss : Snapshot) (ids : List String)
    (m m' : GroupMap) (h : buildMap ss ids m = Except.ok m') :
    ∀ q ∈ m', ∀ x ∈ q.2,
      (∃ q0 ∈ m, x ∈ q0.2) ∨ (x ∈ ids ∧ keyOf ss x ≠ none) := by
  induction ids generalizing m with
  | nil =>
    cases h
    intro q hq x hx
    exact Or.inl ⟨q, hq, hx⟩
  | cons i rest ih =>
    cases hki : keyOf ss i with
    | none =>
      rw [buildMap_cons_none _ _ _ _ hki] at h
      intro q hq x hx
      rcases ih m h q hq x hx with h1 | h1
      · exact Or.inl h1
      · exact Or.inr ⟨List.mem_cons_of_mem _ h1.1, h1.2⟩
    | some k =>
      cases hl : lookupGroup m k with
      | some ids0 =>
        rw [buildMap_cons_push _ _ _ _ _ _ hki hl] at h
        intro q hq x hx
        rcases ih _ h q hq x hx with h1 | h1
        · obtain ⟨q0, hq0, hx0⟩ := h1
          rcases setGroup_mem m k _ q0 hq0 with h2 | h2
          · exact Or.inl ⟨q0, h2, hx0⟩
          · rw [h2.2] at hx0
            rcases List.mem_append.mp hx0 with h3 | h3
            · exact Or.inl ⟨(k, ids0), lookupGroup_mem m k ids0 hl, h3⟩
            · simp at h3
              subst h3
              exact Or.inr ⟨by simp, by simp [hki]⟩
        · exact Or.inr ⟨List.mem_cons_of_mem _ h1.1, h1.2⟩
      | none =>
        by_cases hp : k ∈ protoProps
        · rw [buildMap_cons_proto _ _ _ _ _ hki hl hp] at h
          cases h
        · rw [buildMap_cons_fresh _ _ _ _ _ hki hl hp] at h
          intro q hq x hx
          rcases ih _ h q hq x hx with h1 | h1
          · obtain ⟨q0, hq0, hx0⟩ := h1
            rcases List.mem_append.mp hq0 with h2 | h2
            · exact Or.inl ⟨q0, h2, hx0⟩
            · simp at h2
              rw [h2] at hx0
              simp at hx0
              subst hx0
              exact Or.inr ⟨by simp, by simp [hki]⟩
          · exact Or.inr ⟨List.mem_cons_of_mem _ h1.1, h1.2⟩

theorem buildMap_ok_keys (ss : Snapshot) (ids : List String)
    (m m' : GroupMap) (h : buildMap ss ids m = Except.ok m') :
    ∀ k ∈ m'.map Prod.fst,
      k ∈ m.map Prod.fst ∨ ∃ i, keyOf ss i = some k := by
  induction ids generalizing m with
  | nil =>
    cases h
    intro k hk
    exact Or.inl hk
  | cons i rest ih =>
    cases hki : keyOf ss i with
    | none =>
      rw [buildMap_cons_none _ _ _ _ hki] at h
      exact ih m h
    | some k0 =>
      cases hl : lookupGroup m k0 with
      | some ids0 =>
        rw [buildMap_cons_push _ _ _ _ _ _ hki hl] at h
        intro k hk
        rcases ih _ h k hk with h1 | h1
        · rw [setGroup_keys] at h1
          exact Or.inl h1
        · exact Or.inr h1
      | none =>
        by_cases hp : k0 ∈ protoProps
        · rw [buildMap_cons_proto _ _ _ _ _ hki hl hp] at h
          cases h
        · rw [buildMap_cons_fresh _ _ _ _ _ hki hl hp] at h
          intro k hk
          rcases ih _ h k hk with h1 | h1
          · rw [List.map_append] at h1
            rcases List.mem_append.mp h1 with h2 | h2
            · exact Or.inl h2
            · simp at h2
              exact Or.inr ⟨i, by rw [hki, h2]⟩
          · exact Or.inr h1

theorem buildMap_skip (ss : Snapshot) (id : String)
    (hkey : keyOf ss id = none) (l : List String) (m : GroupMap) :
    buildMap ss (l.filter (fun x => x != id)) m = buildMap ss l m := by
  induction l generalizing m with
  | nil => rfl
  | cons x rest ih =>
    by_cases hx : x = id
    · have hstep : List.filter (fun x0 => x0 != id) (x :: rest)
          = List.filter (fun x0 => x0 != id) rest := by
        simp [List.filter_cons, hx]
      rw [hstep, hx, buildMap_cons_none ss id rest m hkey]
      exact ih m
    · have hstep : List.filter (fun x0 => x0 != id) (x :: rest)
          = x :: List.filter (fun x0 => x0 != id) rest := by
        simp [List.filter_cons, hx]
      rw [hstep]
      cases hkx : keyOf ss x with
      | none =>
        rw [buildMap_cons_none ss x _ m hkx, buildMap_cons_none ss x rest m hkx]
        exact ih m
      | some k =>
        cases hl : lookupGroup m k with
        | some ids0 =>
          rw [buildMap_cons_push ss x _ m k ids0 hkx hl,
              buildMap_cons_push ss x rest m k ids0 hkx hl]
          exact ih _
        | none =>
          by_cases hp : k ∈ protoProps
          · rw [buildMap_cons_proto ss x _ m k hkx hl hp,
                buildMap_cons_proto ss x rest m k hkx hl hp]
          · rw [buildMap_cons_fresh ss x _ m k hkx hl hp,
                buildMap_cons_fresh ss x rest m k hkx hl hp]
            exact ih _

theorem buildMap_congr (ss ss' : Snapshot) (ids : List String)
    (h : ∀ i ∈ ids, friendlyOf ss' i = friendlyOf ss i) (m : GroupMap) :
    buildMap ss' ids m = buildMap ss ids m := by
  induction ids generalizing m with
  | nil => rfl
  | cons i rest ih =>
    have hk : keyOf ss' i = keyOf ss i := by
      unfold keyOf
      rw [h i (by simp)]
    have hrest : ∀ j ∈ rest, friendlyOf ss' j = friendlyOf ss j :=
      fun j hj => h j (List.mem_cons_of_mem _ hj)
    cases hki : keyOf ss i with
    | none =>
      rw [buildMap_cons_none ss' i rest m (hk.trans hki),
          buildMap_cons_none ss i rest m hki]
      exact ih hrest m
    | some k =>
      cases hl : lookupGroup m k with
      | some ids0 =>
        rw [buildMap_cons_push ss' i rest m k ids0 (hk.trans hki) hl,
            buildMap_cons_push ss i rest m k ids0 hki hl]
        exact ih hrest _
      | none =>
        by_cases hp : k ∈ protoProps
        · rw [buildMap_cons_proto ss' i rest m k (hk.trans hki) hl hp,
              buildMap_cons_proto ss i rest m k hki hl hp]
        · rw [buildMap_cons_fresh ss' i rest m k (hk.trans hki) hl hp,
              buildMap_cons_fresh ss i rest m k hki hl hp]
          exact ih hrest _

theorem buildMap_all_none (ss : Snapshot) (ids : List String) (m : GroupMap)
    (h : ∀ i ∈ ids, keyOf ss i = none) :
    buildMap ss ids m = Except.ok m := by
  induction ids with
  | nil => rfl
  | cons i rest ih =>
    rw [buildMap_cons_none ss i rest m (h i (by simp))]
    exact ih (fun j hj => h j (List.mem_cons_of_mem _ hj))

theorem pairsOf_mem (ss : Snapshot) (ids : List String)
    (p : String × String) (h : p ∈ pairsOf ss ids) :
    p.2 ∈ ids ∧ keyOf ss p.2 = some p.1 := by
  unfold pairsOf at h
  obtain ⟨i, hi, hp⟩ := List.mem_filterMap.mp h
  cases hk : keyOf ss i with
  | none => rw [hk] at hp; cases hp
  | some k =>
    rw [hk] at hp
    simp at hp
    rw [← hp]
    exact ⟨hi, hk⟩

theorem pairsOf_mem_of (ss : Snapshot) (ids : List String) (id k : String)
    (hi : id ∈ ids) (hk : keyOf ss id = some k) :
    (k, id) ∈ pairsOf ss ids :=
  List.mem_filterMap.mpr ⟨id, hi, by rw [hk]; rfl⟩

theorem pend_mem (k id : String) (l : List (String × String))
    (h : (k, id) ∈ l) : id ∈ pend k l := by
  unfold pend
  exact List.mem_map.mpr ⟨(k, id), List.mem_filter.mpr ⟨h, by simp⟩, rfl⟩

theorem pairsOf_filter_snd (ss : Snapshot) (ids : List String)
    (hnd : ids.Nodup) (id u : String) (hi : id ∈ ids)
    (hk : keyOf ss id = some u) :
    (pairsOf ss ids).filter (fun p => p.2 == id) = [(u, id)] := by
  induction ids with
  | nil => cases hi
  | cons a rest ih =>
    have hnd2 := List.nodup_cons.mp hnd
    by_cases ha : a = id
    · subst ha
      rw [pairsOf_cons_some ss a rest u hk, List.filter_cons]
      have hb : ((u, a).2 == a) = true := by simp
      rw [hb]
      simp only [if_pos rfl]
      have hrest : (pairsOf ss rest).filter (fun p => p.2 == a) = [] := by
        refine List.filter_eq_nil_iff.mpr (fun p hp => ?_)
        have hmem := (pairsOf_mem ss rest p hp).1
        intro hbeq
        rw [eq_of_beq hbeq] at hmem
        exact hnd2.1 hmem
      rw [hrest]
      simp
    · have hi2 : id ∈ rest := by
        rcases List.mem_cons.mp hi with h1 | h1
        · exact absurd h1.symm ha
        · exact h1
      cases hka : keyOf ss a with
      | none =>
        rw [pairsOf_cons_none ss a rest hka]
        exact ih hnd2.2 hi2
      | some k' =>
        rw [pairsOf_cons_some ss a rest k' hka, List.filter_cons]
        have hb : ((k', a).2 == id) = false := by simp [ha]
        rw [hb]
        simp only [if_neg (by simp : ¬ false = true)]
        exact ih hnd2.2 hi2

/-! ### Lemmas about the rendering pass -/

theorem renderSections_userIds (ss : Snapshot) (m : GroupMap) :
    (renderSections ss m).map (fun s => s.userId) = objectKeys (m.map Prod.fst) := by
  unfold renderSections
  rw [List.map_map]
  exact List.map_id _

theorem renderSections_filter (ss : Snapshot) (m : GroupMap) (u : String)
    (hnd : (m.map Prod.fst).Nodup) (hmem : u ∈ m.map Prod.fst) :
    (renderSections ss m).filter (fun s => s.userId == u)
      = [mkSection ss m u] := by
  unfold renderSections
  rw [filter_map_comm]
  have hkeys : (objectKeys (m.map Prod.fst)).filter (fun x => x == u) = [u] :=
    filter_beq_single _ u ((objectKeys_perm _).symm.nodup hnd)
      ((objectKeys_perm _).mem_iff.mpr hmem)
  have hpred :
      (objectKeys (m.map Prod.fst)).filter
        (fun x => (mkSection ss m x).userId == u)
      = (objectKeys (m.map Prod.fst)).filter (fun x => x == u) := rfl
  rw [hpred, hkeys]
  rfl

theorem renderSections_cards (ss : Snapshot) (m : GroupMap)
    (sec : UserSection) (hsec : sec ∈ renderSections ss m) :
    sec.userId ∈ m.map Prod.fst ∧
    sec.cards = ((lookupGroup m sec.userId).getD []).map
      (fun id => renderCard (stateOf ss id)) := by
  unfold renderSections at hsec
  obtain ⟨u, hu, hmk⟩ := List.mem_map.mp hsec
  have hmemu : u ∈ m.map Prod.fst := (objectKeys_perm _).mem_iff.mp hu
  rw [← hmk]
  exact ⟨hmemu, rfl⟩

/-! ### Branch equations for updateCard -/

theorem updateCard_placeholder (ss : Snapshot) (cfg : Config)
    (prev : RenderedContent) (hs : survivors ss = []) :
    updateCard (some ss) (some cfg) prev
      = UpdateResult.ok (RenderedContent.rendered (titleText cfg)
          (Body.placeholder placeholderText)) := by
  simp only [updateCard]
  rw [if_pos hs]

theorem updateCard_ok_of (ss : Snapshot) (cfg : Config)
    (prev : RenderedContent) (m : GroupMap) (hs : survivors ss ≠ [])
    (hb : buildMap ss (survivors ss) [] = Except.ok m) :
    updateCard (some ss) (some cfg) prev
      = UpdateResult.ok (RenderedContent.rendered (titleText cfg)
          (Body.sections (renderSections ss m))) := by
  simp only [updateCard]
  rw [if_neg hs, hb]

theorem updateCard_threw_of (ss : Snapshot) (cfg : Config)
    (prev : RenderedContent) (hs : survivors ss ≠ [])
    (hb : buildMap ss (survivors ss) [] = Except.error ()) :
    updateCard (some ss) (some cfg) prev
      = UpdateResult.threw (RenderedContent.rendered (titleText cfg)
          (Body.sections [])) := by
  simp only [updateCard]
  rw [if_neg hs, hb]

theorem updateCard_ok_sections (ss : Snapshot) (cfg : Config)
    (prev : RenderedContent) (hdr : String) (secs : List UserSection)
    (h : updateCard (some ss) (some cfg) prev
      = UpdateResult.ok (RenderedContent.rendered hdr (Body.sections secs))) :
    ∃ m, buildMap ss (survivors ss) [] = Except.ok m ∧
      secs = renderSections ss m ∧ hdr = titleText cfg ∧ survivors ss ≠ [] := by
  by_cases hs : survivors ss = []
  · rw [updateCard_placeholder ss cfg prev hs] at h
    cases h
  · cases hb : buildMap ss (survivors ss) [] with
    | error e =>
      cases e
      rw [updateCard_threw_of ss cfg prev hs hb] at h
      cases h
    | ok m =>
      rw [updateCard_ok_of ss cfg prev m hs hb] at h
      cases h
      exact ⟨m, rfl, rfl, rfl, hs⟩

theorem headerOf_updateCard (ss : Snapshot) (cfg : Config)
    (prev : RenderedContent) :
    headerOf (updateCard (some ss) (some cfg) prev) = some (titleText cfg) := by
  by_cases hs : survivors ss = []
  · rw [updateCard_placeholder ss cfg prev hs]
    rfl
  · cases hb : buildMap ss (survivors ss) [] with
    | error e =>
      cases e
      rw [updateCard_threw_of ss cfg prev hs hb]
      rfl
    | ok m =>
      rw [updateCard_ok_of ss cfg prev m hs hb]
      rfl

/-! ### The main rendering lemma for surviving entities -/

theorem master_render (ss : Snapshot) (cfg : Config) (prev : RenderedContent)
    (id k : String) (hsurv : id ∈ survivors ss) (hkey : keyOf ss id = some k)
    (hproto : ∀ p ∈ contribs ss, p.1 ∉ protoProps) :
    ∃ secs,
      updateCard (some ss) (some cfg) prev
        = UpdateResult.ok (RenderedContent.rendered (titleText cfg)
            (Body.sections secs)) ∧
      secs = renderSections ss (groupAll (contribs ss) []) ∧
      secs.filter (fun s => s.userId == k)
        = [{ userId := k,
             cards := (pend k (contribs ss)).map
               (fun i => renderCard (stateOf ss i)) }] ∧
      renderCard (stateOf ss id)
        ∈ (pend k (contribs ss)).map (fun i => renderCard (stateOf ss i)) := by
  have hne : survivors ss ≠ [] := fun hh => by rw [hh] at hsurv; cases hsurv
  have hb : buildMap ss (survivors ss) [] = Except.ok (groupAll (contribs ss) []) :=
    buildMap_eq_groupAll ss (survivors ss) [] hproto
  have hpair : (k, id) ∈ contribs ss :=
    pairsOf_mem_of ss (survivors ss) id k hsurv hkey
  have hpend : id ∈ pend k (contribs ss) := pend_mem k id _ hpair
  have hpne : pend k (contribs ss) ≠ [] := fun hh => by rw [hh] at hpend; cases hpend
  have hmemk : k ∈ (groupAll (contribs ss) []).map Prod.fst :=
    (mem_keys_groupAll _ k).mpr hpne
  have hlook : lookupGroup (groupAll (contribs ss) []) k
      = some (pend k (contribs ss)) := by
    rw [lookupGroup_groupAll_nil, if_neg hpne]
  refine ⟨renderSections ss (groupAll (contribs ss) []),
    updateCard_ok_of ss cfg prev _ hne hb, rfl, ?_, ?_⟩
  · have hf := renderSections_filter ss (groupAll (contribs ss) []) k
      (groupAll_keys_nodup _) hmemk
    rw [hf]
    simp [mkSection, hlook]
  · exact List.mem_map.mpr ⟨id, hpend, rfl⟩

/-! ### Small bridging lemmas for the claims -/

theorem contains_of_mem (l : List Char) (c : Char) (h : c ∈ l) :
    l.contains c = true :=
  List.elem_eq_true_of_mem h

theorem ne_empty_of_mem (fn : String) (c : Char) (h : c ∈ fn.data) :
    fn ≠ "" := by
  intro he
  rw [he] at h
  cases h

theorem data_ne_nil (s : String) (h : s ≠ "") : s.data ≠ [] := by
  intro hd
  apply h
  cases s with
  | mk data =>
    simp at hd
    rw [hd]

theorem open_paren_mem (name user : String) :
    '(' ∈ (name ++ " (" ++ user ++ ")").data := by
  have hd : (name ++ " (" ++ user ++ ")").data
      = name.data ++ ([' ', '('] ++ (user.data ++ [')'])) := by
    have h1 : (" (" : String).data = [' ', '('] := by decide
    have h2 : (")" : String).data = [')'] := by decide
    simp [String.data_append, h1, h2]
  rw [hd]
  simp

theorem friendlyOf_eq (ss : Snapshot) (id : String) (e : EntityState)
    (attrs : Attributes) (fn : String) (hl : lookupState ss id = some e)
    (ha : e.attributes = some attrs) (hf : attrs.friendly_name = some fn) :
    friendlyOf ss id = fn := by
  unfold friendlyOf stateOf
  rw [hl]
  simp [ha, hf]

theorem passesData_of (ss : Snapshot) (id : String) (e : EntityState)
    (attrs : Attributes) (fn : String) (hl : lookupState ss id = some e)
    (ha : e.attributes = some attrs) (hf : attrs.friendly_name = some fn)
    (hfne : fn ≠ "") (hcon : fn.data.contains '(' = true) :
    passesData ss id = true := by
  unfold passesData
  rw [hl]
  simp [ha, hf, hfne]
  exact List.mem_of_elem_eq_true hcon

theorem mem_survivors (ss : Snapshot) (id : String)
    (hk : id ∈ ss.map Prod.fst)
    (hshape : passesShape id = true) (hdata : passesData ss id = true) :
    id ∈ survivors ss := by
  rw [survivors_eq]
  refine List.mem_filter.mpr ⟨hk, ?_⟩
  simp [hshape, hdata]

theorem survivors_shape (ss : Snapshot) (id : String)
    (h : id ∈ survivors ss) : passesShape id = true := by
  rw [survivors_eq] at h
  have h2 := (List.mem_filter.mp h).2
  simp only [Bool.and_eq_true] at h2
  exact h2.1

theorem keyOf_none_cases (ss : Snapshot) (id : String) (e : EntityState)
    (hlook : lookupState ss id = some e)
    (hall : ∀ fn, e.attributes.bind (fun a => a.friendly_name) = some fn →
      extractKey fn = none) :
    keyOf ss id = none := by
  unfold keyOf friendlyOf stateOf
  rw [hlook]
  show extractKey ((e.attributes.getD emptyAttrs).friendly_name.getD "") = none
  cases ha : e.attributes with
  | none => decide
  | some attrs =>
    cases hf : attrs.friendly_name with
    | none =>
      show extractKey (attrs.friendly_name.getD "") = none
      rw [hf]
      decide
    | some fn =>
      show extractKey (attrs.friendly_name.getD "") = none
      rw [hf]
      show extractKey fn = none
      exact hall fn (by rw [ha]; simp [hf])

theorem passesData_dropEntity (ss : Snapshot) (id kk : String) (h : kk ≠ id) :
    passesData (dropEntity ss id) kk = passesData ss kk := by
  unfold passesData
  rw [lookupState_dropEntity ss id kk h]

theorem friendlyOf_dropEntity (ss : Snapshot) (id kk : String) (h : kk ≠ id) :
    friendlyOf (dropEntity ss id) kk = friendlyOf ss kk := by
  unfold friendlyOf stateOf
  rw [lookupState_dropEntity ss id kk h]

theorem isOk_updateCard_iff (ss : Snapshot) (cfg : Config)
    (prev : RenderedContent) :
    isOk (updateCard (some ss) (some cfg) prev) = true
      ↔ ∃ m, buildMap ss (survivors ss) [] = Except.ok m := by
  by_cases hs : survivors ss = []
  · rw [updateCard_placeholder ss cfg prev hs]
    constructor
    · intro _
      refine ⟨[], ?_⟩
      rw [hs]
      rfl
    · intro _
      rfl
  · cases hb : buildMap ss (survivors ss) [] with
    | error e =>
      cases e
      rw [updateCard_threw_of ss cfg prev hs hb]
      constructor
      · intro h
        cases h
      · intro h
        obtain ⟨m, hm⟩ := h
        exact Except.noConfusion hm
    | ok m =>
      rw [updateCard_ok_of ss cfg prev m hs hb]
      constructor
      · intro _
        exact ⟨m, rfl⟩
      · intro _
        rfl

theorem setConfig_default (c : Config) (h : c.title = none ∨ c.title = some "") :
    setConfig c = { title := some "Health Bridge", extra := c.extra } := by
  unfold setConfig
  rcases h with h | h <;> rw [h]
  rfl

theorem setConfig_keep (c : Config) (t : String) (ht : c.title = some t)
    (hne : t ≠ "") : setConfig c = c := by
  unfold setConfig
  rw [ht]
  simp [hne]

/-! ### Claim C4 -/

/-- C4: invoking the update entry point twice in succession with the same
configuration and snapshot yields output identical to invoking it once —
the pass clears the content and rebuilds it without reading the previous
content, so the result does not depend on what was rendered before. -/
theorem claim_c4_idempotent (ss : Snapshot) (cfg : Config)
    (prev : RenderedContent) :
    updateCard (some ss) (some cfg)
        (contentOf (updateCard (some ss) (some cfg) prev))
      = updateCard (some ss) (some cfg) prev := rfl

/-! ### Claim C6 -/

/-- C6 counterexample: the claim says the caller-supplied configuration
object is left unchanged, but `setConfig({})` writes
`config.title = 'Health Bridge'` onto the caller's object before storing
that same object, so the object after the call differs from the object
passed in. -/
theorem claim_c6_counterexample :
    setConfig { title := none, extra := [] }
      = { title := some "Health Bridge", extra := [] } ∧
    ({ title := some "Health Bridge", extra := [] } : Config)
      ≠ { title := none, extra := [] } := by
  exact ⟨rfl, by decide⟩

/-- C6 (amended): `setConfig` stores the configuration object itself; when
the title is present and nonempty the caller's object is unchanged, and
when the title is unset or empty the call first writes the default title
onto the caller's object — no other field of the object is touched and no
other widget state is modified. -/
theorem claim_c6_amended (c : Config) :
    (∀ t, c.title = some t → t ≠ "" → setConfig c = c) ∧
    ((c.title = none ∨ c.title = some "") →
      setConfig c = { title := some "Health Bridge", extra := c.extra }) := by
  constructor
  · intro t ht hne
    exact setConfig_keep c t ht hne
  · intro h
    exact setConfig_default c h

/-- C6 witness: the amended statement evaluated at two concrete
configuration objects. -/
theorem claim_c6_witness :
    setConfig { title := some "My", extra := [("k", "v")] }
      = { title := some "My", extra := [("k", "v")] } ∧
    setConfig { title := none, extra := [("k", "v")] }
      = { title := some "Health Bridge", extra := [("k", "v")] } :=
  ⟨(claim_c6_amended _).1 "My" rfl (by decide),
   (claim_c6_amended _).2 (Or.inl rfl)⟩

/-! ### Claim C9 -/

/-- C9: configuring with an unset or empty title stores the default title
`"Health Bridge"` and every subsequent render shows it as the header;
configuring with a nonempty title shows that title instead. -/
theorem claim_c9_title (c : Config) :
    ((c.title = none ∨ c.title = some "") →
      (setConfig c).title = some "Health Bridge" ∧
      ∀ ss prev, headerOf (updateCard (some ss) (some (setConfig c)) prev)
        = some "Health Bridge") ∧
    (∀ t, c.title = some t → t ≠ "" →
      (setConfig c).title = some t ∧
      ∀ ss prev, headerOf (updateCard (some ss) (some (setConfig c)) prev)
        = some t) := by
  constructor
  · intro h
    rw [setConfig_default c h]
    exact ⟨rfl, fun ss prev => by rw [headerOf_updateCard]; rfl⟩
  · intro t ht hne
    rw [setConfig_keep c t ht hne]
    refine ⟨ht, fun ss prev => ?_⟩
    rw [headerOf_updateCard]
    unfold titleText
    rw [ht]
    rfl

/-- C9 witness: an empty configuration renders the default header, a
custom title renders that title. -/
theorem claim_c9_witness :
    headerOf (updateCard (some [])
      (some (setConfig { title := none, extra := [] })) RenderedContent.empty)
      = some "Health Bridge" ∧
    headerOf (updateCard (some [])
      (some (setConfig { title := some "Hi", extra := [] })) RenderedContent.empty)
      = some "Hi" :=
  ⟨((claim_c9_title _).1 (Or.inl rfl)).2 [] _,
   ((claim_c9_title _).2 "Hi" rfl (by decide)).2 [] _⟩

/-! ### Claim C5 -/

/-- C5 counterexample: the claim says no input ever makes the widget throw
and `setConfig(null)` is a silent no-op.  In fact `setConfig(null)` throws
a `TypeError` reading `config.title` of `null`, and the rendering pass
throws a `TypeError` on a snapshot whose grouping key `"toString"` reads a
truthy inherited `Object.prototype` property, so
`userEntityMap[userId].push` is not a function. -/
theorem claim_c5_counterexample :
    setConfigCall JSArg.jsNull = Except.error () ∧
    updateCard (some [("sensor.a_b",
        { state := "2", attributes := some { friendly_name := some "A (toString)", unit_of_measurement := none, icon := none } })])
      (some { title := some "T", extra := [] }) RenderedContent.empty
      = UpdateResult.threw (RenderedContent.rendered "T" (Body.sections [])) := by
  exact ⟨rfl, by decide⟩

/-- C5 (amended): `setConfig` never throws on an object argument, and the
rendering pass returns normally on every snapshot — malformed or partial
attributes included — provided no grouping key of a surviving entity
collides with an `Object.prototype` property name; `setConfig` on
`null`/`undefined`, or a colliding grouping key, throws a `TypeError`. -/
theorem claim_c5_amended :
    (∀ c, setConfigCall (JSArg.jsObj c) = Except.ok (setConfig c)) ∧
    (∀ ss cfg prev, (∀ p ∈ contribs ss, p.1 ∉ protoProps) →
      isOk (updateCard (some ss) (some cfg) prev) = true) := by
  constructor
  · intro c
    rfl
  · intro ss cfg prev hp
    by_cases hs : survivors ss = []
    · rw [updateCard_placeholder ss cfg prev hs]
      rfl
    · rw [updateCard_ok_of ss cfg prev _ hs (buildMap_eq_groupAll ss _ [] hp)]
      rfl

/-- C5 witness: the amended statement at a concrete config and a concrete
snapshot with an ordinary grouping key. -/
theorem claim_c5_witness :
    setConfigCall (JSArg.jsObj { title := none, extra := [] })
      = Except.ok { title := some "Health Bridge", extra := [] } ∧
    isOk (updateCard (some [("sensor.steps_a",
        { state := "1", attributes := some { friendly_name := some "S (amy)", unit_of_measurement := none, icon := none } })])
      (some { title := some "T", extra := [] }) RenderedContent.empty) = true :=
  ⟨claim_c5_amended.1 _, claim_c5_amended.2 _ _ _ (by decide)⟩

/-! ### Claim C1 -/

/-- C1 counterexample: the claim says that whenever the pass forms no
groups the output after the header is exactly the placeholder.  But the
placeholder is rendered only when the step-3 filter leaves nothing: an
entity whose friendly name contains `'('` yet has no trailing
parenthetical passes the filter, forms no group, and yields a header with
neither placeholder nor sections. -/
theorem claim_c1_counterexample :
    updateCard (some [("sensor.a_b",
        { state := "1", attributes := some { friendly_name := some "x(", unit_of_measurement := none, icon := none } })])
      (some { title := some "T", extra := [] }) RenderedContent.empty
      = UpdateResult.ok (RenderedContent.rendered "T" (Body.sections [])) ∧
    Body.sections ([] : List UserSection) ≠ Body.placeholder placeholderText := by
  exact ⟨by decide, by decide⟩

/-- C1 (amended): the placeholder is rendered exactly when no entity
survives the step-3 filter; when entities survive the filter but none
yields a grouping key, the rendering stops after the header with no
placeholder and no sections. -/
theorem claim_c1_amended (ss : Snapshot) (cfg : Config)
    (prev : RenderedContent) :
    (survivors ss = [] →
      updateCard (some ss) (some cfg) prev
        = UpdateResult.ok (RenderedContent.rendered (titleText cfg)
            (Body.placeholder placeholderText))) ∧
    (survivors ss ≠ [] → (∀ i ∈ survivors ss, keyOf ss i = none) →
      updateCard (some ss) (some cfg) prev
        = UpdateResult.ok (RenderedContent.rendered (titleText cfg)
            (Body.sections []))) := by
  constructor
  · exact updateCard_placeholder ss cfg prev
  · intro hs hall
    rw [updateCard_ok_of ss cfg prev [] hs (buildMap_all_none ss _ [] hall)]
    rfl

/-- C1 witness: the amended statement at an empty snapshot (placeholder)
and at a snapshot whose only filtered entity yields no grouping key
(header only). -/
theorem claim_c1_witness :
    updateCard (some []) (some { title := some "W", extra := [] })
        RenderedContent.empty
      = UpdateResult.ok (RenderedContent.rendered "W"
          (Body.placeholder placeholderText)) ∧
    updateCard (some [("sensor.c_d",
        { state := "9", attributes := some { friendly_name := some "y(z", unit_of_measurement := none, icon := none } })])
      (some { title := some "W", extra := [] }) RenderedContent.empty
      = UpdateResult.ok (RenderedContent.rendered "W" (Body.sections [])) :=
  ⟨(claim_c1_amended _ _ _).1 rfl,
   (claim_c1_amended _ _ _).2 (by decide) (by decide)⟩

/-! ### Claim C10 -/

/-- C10 counterexample: the claim says an entity whose friendly name ends
in an empty parenthetical `"()"` is dropped at extraction.  The friendly
name `"a(()"` ends in `"()"`, yet the leftmost match of `/\(([^)]+)\)$/`
starts at the earlier `'('` and captures `"("`, so the entity is rendered
under the grouping key `"("`. -/
theorem claim_c10_counterexample :
    extractKey "a(()" = some "(" ∧
    updateCard (some [("sensor.a_b",
        { state := "3", attributes := some { friendly_name := some "a(()", unit_of_measurement := none, icon := none } })])
      (some { title := some "T", extra := [] }) RenderedContent.empty
      = UpdateResult.ok (RenderedContent.rendered "T" (Body.sections
          [{ userId := "(", cards := [{ icon := "mdi:help-circle", value := "3", name := "a(()", unitText := none }] }])) := by
  exact ⟨by decide, by decide⟩

/-- C10 (amended): every grouping key under which a section is rendered is
nonempty and contains no `')'`; and an entity whose friendly name ends in
`"()"` with no `'('` earlier in the name is silently dropped at the
extraction stage even though it passes the step-3 filter. -/
theorem claim_c10_amended :
    (∀ ss cfg prev hdr secs,
      updateCard (some ss) (some cfg) prev
        = UpdateResult.ok (RenderedContent.rendered hdr (Body.sections secs)) →
      ∀ sec ∈ secs, sec.userId ≠ "" ∧ ∀ c ∈ sec.userId.data, c ≠ ')') ∧
    (∀ p : String, (∀ c ∈ p.data, c ≠ '(') →
      extractKey (p ++ "()") = none ∧ (p ++ "()").data.contains '(' = true) := by
  constructor
  · intro ss cfg prev hdr secs h sec hsec
    obtain ⟨m, hb, hsecs, hhdr, hne⟩ := updateCard_ok_sections ss cfg prev hdr secs h
    rw [hsecs] at hsec
    have hcards := renderSections_cards ss m sec hsec
    rcases buildMap_ok_keys ss _ [] m hb sec.userId hcards.1 with h1 | h1
    · cases h1
    · obtain ⟨i, hkey⟩ := h1
      unfold keyOf at hkey
      have hp := extractKey_props _ _ hkey
      constructor
      · intro he
        rw [he] at hp
        exact hp.1 rfl
      · exact hp.2.1
  · intro p hp
    refine ⟨extractKey_empty_parens p hp, ?_⟩
    have hd : (p ++ "()").data = p.data ++ ['(', ')'] := by
      have h2 : ("()" : String).data = ['(', ')'] := by decide
      simp [String.data_append, h2]
    rw [hd]
    exact contains_of_mem _ _ (by simp)

/-- C10 witness: the key-shape invariant evaluated on the sections of a
concrete render, and the drop clause on a concrete name. -/
theorem claim_c10_witness :
    (∀ sec ∈ [({ userId := "amy", cards := [{ icon := "mdi:help-circle", value := "4", name := "P", unitText := none }] } : UserSection)],
      sec.userId ≠ "" ∧ ∀ c ∈ sec.userId.data, c ≠ ')') ∧
    extractKey ("Q" ++ "()") = none :=
  ⟨claim_c10_amended.1
      [("sensor.w_x", { state := "4", attributes := some { friendly_name := some "P (amy)", unit_of_measurement := none, icon := none } })]
      { title := some "T", extra := [] } RenderedContent.empty "T" _ (by decide),
   (claim_c10_amended.2 "Q" (by decide)).1⟩

/-! ### Claim C2 -/

/-- C2 counterexample: the claim promises a rendered metric card for every
entity of the canonical form in every snapshot, but a second entity whose
grouping key is `"valueOf"` makes the grouping pass throw, so nothing — in
particular no card for the `"Steps (alice)"` entity — is rendered. -/
theorem claim_c2_counterexample :
    updateCard (some [
      ("sensor.steps_alice", { state := "1200", attributes := some { friendly_name := some "Steps (alice)", unit_of_measurement := some "count", icon := none } }),
      ("sensor.b_c", { state := "2", attributes := some { friendly_name := some "B (valueOf)", unit_of_measurement := none, icon := none } })])
      (some { title := some "T", extra := [] }) RenderedContent.empty
      = UpdateResult.threw (RenderedContent.rendered "T" (Body.sections [])) := by
  decide

/-- C2 (amended): for every snapshot with distinct keys in which no
grouping key collides with an `Object.prototype` property name, an entity
with sensor-shaped id and friendly name `name ++ " (" ++ user ++ ")"`
(`user` nonempty without `')'`, `name` without `'('`) and a nonempty unit
is rendered as exactly one metric card — display name `name`, the raw
state value, the unit — inside the unique section of key `user`. -/
theorem claim_c2_amended (ss : Snapshot) (cfg : Config)
    (prev : RenderedContent) (id : String) (e : EntityState)
    (attrs : Attributes) (name user unit : String)
    (hnd : (ss.map Prod.fst).Nodup) (hmem : (id, e) ∈ ss)
    (hshape : passesShape id = true)
    (hattrs : e.attributes = some attrs)
    (hfn : attrs.friendly_name = some (name ++ " (" ++ user ++ ")"))
    (hname : ∀ c ∈ name.data, c ≠ '(')
    (huser : user ≠ "") (huserc : ∀ c ∈ user.data, c ≠ ')')
    (hunit : attrs.unit_of_measurement = some unit) (hune : unit ≠ "")
    (hproto : ∀ p ∈ contribs ss, p.1 ∉ protoProps) :
    ∃ secs,
      updateCard (some ss) (some cfg) prev
        = UpdateResult.ok (RenderedContent.rendered (titleText cfg)
            (Body.sections secs)) ∧
      secs.filter (fun s => s.userId == user)
        = [{ userId := user,
             cards := (pend user (contribs ss)).map
               (fun i => renderCard (stateOf ss i)) }] ∧
      renderCard e ∈ (pend user (contribs ss)).map
        (fun i => renderCard (stateOf ss i)) ∧
      (renderCard e).name = name ∧
      (renderCard e).value = e.state ∧
      (renderCard e).unitText = some unit ∧
      (contribs ss).filter (fun p => p.2 == id) = [(user, id)] := by
  have hlook : lookupState ss id = some e := lookupState_eq_of_mem ss id e hnd hmem
  have hudata : user.data ≠ [] := data_ne_nil user huser
  have hfneq : friendlyOf ss id = name ++ " (" ++ user ++ ")" :=
    friendlyOf_eq ss id e attrs _ hlook hattrs hfn
  have hkey : keyOf ss id = some user := by
    unfold keyOf
    rw [hfneq]
    exact extractKey_canonical name user hname hudata huserc
  have hdata : passesData ss id = true :=
    passesData_of ss id e attrs _ hlook hattrs hfn
      (ne_empty_of_mem _ '(' (open_paren_mem name user))
      (contains_of_mem _ _ (open_paren_mem name user))
  have hsurv : id ∈ survivors ss :=
    mem_survivors ss id (List.mem_map.mpr ⟨(id, e), hmem, rfl⟩) hshape hdata
  obtain ⟨secs, hupd, hsecs, hfil, hmemcard⟩ :=
    master_render ss cfg prev id user hsurv hkey hproto
  have hstate : stateOf ss id = e := by
    unfold stateOf
    rw [hlook]
    rfl
  refine ⟨secs, hupd, hfil, ?_, ?_, rfl, ?_, ?_⟩
  · rw [← hstate]
    exact hmemcard
  · simp [renderCard, hattrs, hfn]
    exact metricName_canonical name user hname hudata huserc
  · simp [renderCard, hattrs, hunit, hune]
  · exact pairsOf_filter_snd ss (survivors ss) (survivors_nodup ss hnd)
      id user hsurv hkey

/-- C2 witness: the amended statement at the one-entity snapshot of the
claim's example. -/
theorem claim_c2_witness :
    ∃ secs,
      updateCard (some [("sensor.steps_alice", { state := "1200", attributes := some { friendly_name := some "Steps (alice)", unit_of_measurement := some "count", icon := none } })])
        (some { title := some "T", extra := [] }) RenderedContent.empty
        = UpdateResult.ok (RenderedContent.rendered
            (titleText { title := some "T", extra := [] }) (Body.sections secs)) ∧
      secs.filter (fun s => s.userId == "alice")
        = [{ userId := "alice",
             cards := (pend "alice" (contribs [("sensor.steps_alice", { state := "1200", attributes := some { friendly_name := some "Steps (alice)", unit_of_measurement := some "count", icon := none } })])).map
               (fun i => renderCard (stateOf [("sensor.steps_alice", { state := "1200", attributes := some { friendly_name := some "Steps (alice)", unit_of_measurement := some "count", icon := none } })] i)) }] ∧
      renderCard { state := "1200", attributes := some { friendly_name := some "Steps (alice)", unit_of_measurement := some "count", icon := none } }
        ∈ (pend "alice" (contribs [("sensor.steps_alice", { state := "1200", attributes := some { friendly_name := some "Steps (alice)", unit_of_measurement := some "count", icon := none } })])).map
            (fun i => renderCard (stateOf [("sensor.steps_alice", { state := "1200", attributes := some { friendly_name := some "Steps (alice)", unit_of_measurement := some "count", icon := none } })] i)) ∧
      (renderCard { state := "1200", attributes := some { friendly_name := some "Steps (alice)", unit_of_measurement := some "count", icon := none } }).name = "Steps" ∧
      (renderCard { state := "1200", attributes := some { friendly_name := some "Steps (alice)", unit_of_measurement := some "count", icon := none } }).value
        = ({ state := "1200", attributes := some { friendly_name := some "Steps (alice)", unit_of_measurement := some "count", icon := none } } : EntityState).state ∧
      (renderCard { state := "1200", attributes := some { friendly_name := some "Steps (alice)", unit_of_measurement := some "count", icon := none } }).unitText = some "count" ∧
      (contribs [("sensor.steps_alice", { state := "1200", attributes := some { friendly_name := some "Steps (alice)", unit_of_measurement := some "count", icon := none } })]).filter (fun p => p.2 == "sensor.steps_alice")
        = [("alice", "sensor.steps_alice")] :=
  claim_c2_amended _ _ RenderedContent.empty "sensor.steps_alice" _ _
    "Steps" "alice" "count" (by decide) (by decide) (by decide) rfl
    (by decide) (by decide) (by decide) (by decide) rfl (by decide) (by decide)

/-! ### Claim C8 -/

/-- C8 counterexample: the claim says a surviving entity with the icon
attribute absent still renders a card with the default icon, but when its
grouping key is `"hasOwnProperty"` the grouping pass throws and no card is
rendered at all. -/
theorem claim_c8_counterexample :
    updateCard (some [("sensor.a_b", { state := "5", attributes := some { friendly_name := some "X (hasOwnProperty)", unit_of_measurement := none, icon := none } })])
      (some { title := some "T", extra := [] }) RenderedContent.empty
      = UpdateResult.threw (RenderedContent.rendered "T" (Body.sections [])) := by
  decide

/-- C8 (amended): for a snapshot with distinct keys in which no grouping
key collides with an `Object.prototype` property name, every entity that
survives filtering and key extraction renders a card in its key's unique
section; an absent icon attribute yields the fixed default
`"mdi:help-circle"`, an absent unit attribute yields a card with the unit
element omitted, and value and display name are unaffected. -/
theorem claim_c8_amended (ss : Snapshot) (cfg : Config)
    (prev : RenderedContent) (id : String) (e : EntityState)
    (attrs : Attributes) (fn k : String)
    (hnd : (ss.map Prod.fst).Nodup) (hmem : (id, e) ∈ ss)
    (hshape : passesShape id = true)
    (hattrs : e.attributes = some attrs)
    (hfn : attrs.friendly_name = some fn)
    (hkey : extractKey fn = some k)
    (hproto : ∀ p ∈ contribs ss, p.1 ∉ protoProps) :
    ∃ secs,
      updateCard (some ss) (some cfg) prev
        = UpdateResult.ok (RenderedContent.rendered (titleText cfg)
            (Body.sections secs)) ∧
      secs.filter (fun s => s.userId == k)
        = [{ userId := k,
             cards := (pend k (contribs ss)).map
               (fun i => renderCard (stateOf ss i)) }] ∧
      renderCard e ∈ (pend k (contribs ss)).map
        (fun i => renderCard (stateOf ss i)) ∧
      (attrs.icon = none → (renderCard e).icon = "mdi:help-circle") ∧
      (attrs.unit_of_measurement = none → (renderCard e).unitText = none) ∧
      (renderCard e).value = e.state ∧
      (renderCard e).name = metricName fn := by
  have hlook : lookupState ss id = some e := lookupState_eq_of_mem ss id e hnd hmem
  have hprops := extractKey_props fn k hkey
  have hfneq : friendlyOf ss id = fn := friendlyOf_eq ss id e attrs _ hlook hattrs hfn
  have hkeyOf : keyOf ss id = some k := by
    unfold keyOf
    rw [hfneq]
    exact hkey
  have hdata : passesData ss id = true :=
    passesData_of ss id e attrs _ hlook hattrs hfn
      (ne_empty_of_mem _ '(' hprops.2.2) (contains_of_mem _ _ hprops.2.2)
  have hsurv : id ∈ survivors ss :=
    mem_survivors ss id (List.mem_map.mpr ⟨(id, e), hmem, rfl⟩) hshape hdata
  obtain ⟨secs, hupd, hsecs, hfil, hmemcard⟩ :=
    master_render ss cfg prev id k hsurv hkeyOf hproto
  have hstate : stateOf ss id = e := by
    unfold stateOf
    rw [hlook]
    rfl
  refine ⟨secs, hupd, hfil, ?_, ?_, ?_, rfl, ?_⟩
  · rw [← hstate]
    exact hmemcard
  · intro hic
    simp [renderCard, hattrs, hic]
  · intro hun
    simp [renderCard, hattrs, hun]
  · simp [renderCard, hattrs, hfn]

/-- C8 witness: the amended statement at a one-entity snapshot whose
entity has neither icon nor unit attribute. -/
theorem claim_c8_witness :
    ∃ secs,
      updateCard (some [("sensor.p_b", { state := "72", attributes := some { friendly_name := some "Pulse (bob)", unit_of_measurement := none, icon := none } })])
        (some { title := some "T", extra := [] }) RenderedContent.empty
        = UpdateResult.ok (RenderedContent.rendered
            (titleText { title := some "T", extra := [] }) (Body.sections secs)) ∧
      secs.filter (fun s => s.userId == "bob")
        = [{ userId := "bob",
             cards := (pend "bob" (contribs [("sensor.p_b", { state := "72", attributes := some { friendly_name := some "Pulse (bob)", unit_of_measurement := none, icon := none } })])).map
               (fun i => renderCard (stateOf [("sensor.p_b", { state := "72", attributes := some { friendly_name := some "Pulse (bob)", unit_of_measurement := none, icon := none } })] i)) }] ∧
      renderCard { state := "72", attributes := some { friendly_name := some "Pulse (bob)", unit_of_measurement := none, icon := none } }
        ∈ (pend "bob" (contribs [("sensor.p_b", { state := "72", attributes := some { friendly_name := some "Pulse (bob)", unit_of_measurement := none, icon := none } })])).map
            (fun i => renderCard (stateOf [("sensor.p_b", { state := "72", attributes := some { friendly_name := some "Pulse (bob)", unit_of_measurement := none, icon := none } })] i)) ∧
      (({ friendly_name := some "Pulse (bob)", unit_of_measurement := none, icon := none } : Attributes).icon = none →
        (renderCard { state := "72", attributes := some { friendly_name := some "Pulse (bob)", unit_of_measurement := none, icon := none } }).icon = "mdi:help-circle") ∧
      (({ friendly_name := some "Pulse (bob)", unit_of_measurement := none, icon := none } : Attributes).unit_of_measurement = none →
        (renderCard { state := "72", attributes := some { friendly_name := some "Pulse (bob)", unit_of_measurement := none, icon := none } }).unitText = none) ∧
      (renderCard { state := "72", attributes := some { friendly_name := some "Pulse (bob)", unit_of_measurement := none, icon := none } }).value
        = ({ state := "72", attributes := some { friendly_name := some "Pulse (bob)", unit_of_measurement := none, icon := none } } : EntityState).state ∧
      (renderCard { state := "72", attributes := some { friendly_name := some "Pulse (bob)", unit_of_measurement := none, icon := none } }).name
        = metricName "Pulse (bob)" :=
  claim_c8_amended _ _ RenderedContent.empty "sensor.p_b" _ _ "Pulse (bob)" "bob"
    (by decide) (by decide) (by decide) rfl rfl (by decide) (by decide)

/-! ### Claim C7 -/

/-- C7 counterexample: the claim says group sections appear in the order
each key was first encountered.  `Object.keys` iterates canonical
array-index keys first in ascending numeric order: with keys first seen in
the order `bob`, `0`, the sections render as `0`, `bob`. -/
theorem claim_c7_counterexample :
    updateCard (some [
      ("sensor.a_b", { state := "1", attributes := some { friendly_name := some "M (bob)", unit_of_measurement := none, icon := none } }),
      ("sensor.c_d", { state := "2", attributes := some { friendly_name := some "N (0)", unit_of_measurement := none, icon := none } })])
      (some { title := some "T", extra := [] }) RenderedContent.empty
      = UpdateResult.ok (RenderedContent.rendered "T" (Body.sections
          [{ userId := "0", cards := [{ icon := "mdi:help-circle", value := "2", name := "N", unitText := none }] },
           { userId := "bob", cards := [{ icon := "mdi:help-circle", value := "1", name := "M", unitText := none }] }])) ∧
    firstSeen ((contribs [
      ("sensor.a_b", { state := "1", attributes := some { friendly_name := some "M (bob)", unit_of_measurement := none, icon := none } }),
      ("sensor.c_d", { state := "2", attributes := some { friendly_name := some "N (0)", unit_of_measurement := none, icon := none } })]).map Prod.fst)
      = ["bob", "0"] := by
  exact ⟨by decide, by decide⟩

/-- C7 (amended): when no grouping key collides with an
`Object.prototype` property name and none is a canonical array-index
string, the rendered sections carry the grouping keys in first-seen order,
and each section's cards are the contributions to that key in snapshot
iteration order of the surviving entities; in particular two entities
`"Steps (alice)"`, `"Heart Rate (alice)"` land in the one section `alice`
in snapshot order.  (With array-index keys, those keys sort first in
ascending numeric order.) -/
theorem claim_c7_amended (ss : Snapshot) (cfg : Config)
    (prev : RenderedContent) (hs : survivors ss ≠ [])
    (hproto : ∀ p ∈ contribs ss, p.1 ∉ protoProps)
    (hidx : ∀ p ∈ contribs ss, isCanonicalIndex p.1.data = false) :
    ∃ secs,
      updateCard (some ss) (some cfg) prev
        = UpdateResult.ok (RenderedContent.rendered (titleText cfg)
            (Body.sections secs)) ∧
      secs.map (fun s => s.userId) = firstSeen ((contribs ss).map Prod.fst) ∧
      ∀ sec ∈ secs, sec.cards
        = (pend sec.userId (contribs ss)).map
            (fun i => renderCard (stateOf ss i)) := by
  have hb : buildMap ss (survivors ss) [] = Except.ok (groupAll (contribs ss) []) :=
    buildMap_eq_groupAll ss _ [] hproto
  refine ⟨renderSections ss (groupAll (contribs ss) []),
    updateCard_ok_of ss cfg prev _ hs hb, ?_, ?_⟩
  · rw [renderSections_userIds, groupAll_keys_firstSeen]
    refine objectKeys_no_canonical _ (fun kk hk => ?_)
    obtain ⟨p, hp, hpe⟩ := List.mem_map.mp (firstSeen_subset _ kk hk)
    rw [← hpe]
    exact hidx p hp
  · intro sec hsec
    have hc := renderSections_cards ss (groupAll (contribs ss) []) sec hsec
    have hpne : pend sec.userId (contribs ss) ≠ [] :=
      (mem_keys_groupAll _ _).mp hc.1
    have hlook : lookupGroup (groupAll (contribs ss) []) sec.userId
        = some (pend sec.userId (contribs ss)) := by
      rw [lookupGroup_groupAll_nil, if_neg hpne]
    rw [hc.2, hlook]
    rfl

/-- C7 witness: the amended statement at the two-entity `alice` snapshot
of the claim. -/
theorem claim_c7_witness :
    ∃ secs,
      updateCard (some [
        ("sensor.s_a", { state := "10", attributes := some { friendly_name := some "Steps (alice)", unit_of_measurement := none, icon := none } }),
        ("sensor.h_a", { state := "70", attributes := some { friendly_name := some "Heart Rate (alice)", unit_of_measurement := none, icon := none } })])
        (some { title := some "T", extra := [] }) RenderedContent.empty
        = UpdateResult.ok (RenderedContent.rendered
            (titleText { title := some "T", extra := [] }) (Body.sections secs)) ∧
      secs.map (fun s => s.userId)
        = firstSeen ((contribs [
            ("sensor.s_a", { state := "10", attributes := some { friendly_name := some "Steps (alice)", unit_of_measurement := none, icon := none } }),
            ("sensor.h_a", { state := "70", attributes := some { friendly_name := some "Heart Rate (alice)", unit_of_measurement := none, icon := none } })]).map Prod.fst) ∧
      ∀ sec ∈ secs, sec.cards
        = (pend sec.userId (contribs [
            ("sensor.s_a", { state := "10", attributes := some { friendly_name := some "Steps (alice)", unit_of_measurement := none, icon := none } }),
            ("sensor.h_a", { state := "70", attributes := some { friendly_name := some "Heart Rate (alice)", unit_of_measurement := none, icon := none } })])).map
            (fun i => renderCard (stateOf [
              ("sensor.s_a", { state := "10", attributes := some { friendly_name := some "Steps (alice)", unit_of_measurement := none, icon := none } }),
              ("sensor.h_a", { state := "70", attributes := some { friendly_name := some "Heart Rate (alice)", unit_of_measurement := none, icon := none } })] i)) :=
  claim_c7_amended _ _ RenderedContent.empty (by decide) (by decide) (by decide)

/-! ### Claim C3 -/

/-- C3: an entity whose identifier fails the sensor-shape test, or whose
friendly name yields no grouping key, contributes to no group and to no
rendered card, and its presence does not change whether the render
completes normally — stated as: it appears in no contributor pair, in no
group array of a successful grouping pass, and removing its entry from the
snapshot leaves the normal/thrown status of `updateCard` unchanged. -/
theorem claim_c3_excluded (ss : Snapshot) (cfg : Config)
    (prev : RenderedContent) (id : String) (e : EntityState)
    (hnd : (ss.map Prod.fst).Nodup) (hmem : (id, e) ∈ ss)
    (hex : passesShape id = false ∨
      (∀ fn, e.attributes.bind (fun a => a.friendly_name) = some fn →
        extractKey fn = none)) :
    (∀ p ∈ contribs ss, p.2 ≠ id) ∧
    (∀ m, buildMap ss (survivors ss) [] = Except.ok m → ∀ q ∈ m, id ∉ q.2) ∧
    isOk (updateCard (some ss) (some cfg) prev)
      = isOk (updateCard (some (dropEntity ss id)) (some cfg) prev) := by
  have hlook : lookupState ss id = some e := lookupState_eq_of_mem ss id e hnd hmem
  have hkeyOf : passesShape id = false ∨ keyOf ss id = none := by
    rcases hex with h | h
    · exact Or.inl h
    · exact Or.inr (keyOf_none_cases ss id e hlook h)
  refine ⟨?_, ?_, ?_⟩
  · intro p hp heq
    have hmem2 := pairsOf_mem ss (survivors ss) p hp
    rcases hkeyOf with h | h
    · have hsh := survivors_shape ss p.2 hmem2.1
      rw [heq, h] at hsh
      cases hsh
    · rw [heq, h] at hmem2
      exact Option.noConfusion hmem2.2
  · intro m hb q hq hin
    rcases buildMap_ok_values ss (survivors ss) [] m hb q hq id hin with h1 | h1
    · obtain ⟨q0, hq0, _⟩ := h1
      cases hq0
    · rcases hkeyOf with h | h
      · have hsh := survivors_shape ss id h1.1
        rw [h] at hsh
        cases hsh
      · exact h1.2 h
  · have hkeys : (dropEntity ss id).map Prod.fst
        = (ss.map Prod.fst).filter (fun kk => kk != id) :=
      (filter_map_comm Prod.fst (fun kk => kk != id) ss).symm
    have hsurvd : survivors (dropEntity ss id)
        = (ss.map Prod.fst).filter
            (fun kk => (kk != id) && (passesShape kk && passesData ss kk)) := by
      rw [survivors_eq, hkeys, filter_pair]
      refine List.filter_congr (fun kk _ => ?_)
      by_cases hne : kk = id
      · rw [hne]
        simp
      · rw [passesData_dropEntity ss id kk hne]
    have hbm : buildMap (dropEntity ss id) (survivors (dropEntity ss id)) []
        = buildMap ss (survivors ss) [] := by
      by_cases hq : (passesShape id && passesData ss id) = true
      · have hall : keyOf ss id = none := by
          rcases hkeyOf with h | h
          · rw [h] at hq
            simp at hq
          · exact h
        have hsubset : survivors (dropEntity ss id)
            = (survivors ss).filter (fun kk => kk != id) := by
          rw [hsurvd, survivors_eq, filter_pair]
          refine List.filter_congr (fun kk _ => ?_)
          exact Bool.and_comm _ _
        rw [hsubset,
            buildMap_congr ss (dropEntity ss id)
              ((survivors ss).filter (fun kk => kk != id))
              (fun i hi => friendlyOf_dropEntity ss id i (by
                have h2 := (List.mem_filter.mp hi).2
                simpa using h2)) []]
        exact buildMap_skip ss id hall (survivors ss) []
      · have hqf : (passesShape id && passesData ss id) = false := by
          cases hv : (passesShape id && passesData ss id)
          · rfl
          · exact absurd hv hq
        have hnid : id ∉ survivors ss := by
          intro hin
          rw [survivors_eq] at hin
          have h2 := (List.mem_filter.mp hin).2
          rw [hqf] at h2
          cases h2
        have hsame : survivors (dropEntity ss id) = survivors ss := by
          rw [hsurvd, survivors_eq]
          refine List.filter_congr (fun kk _ => ?_)
          by_cases hne : kk = id
          · rw [hne, hqf]
            simp
          · simp [hne]
        rw [hsame]
        exact buildMap_congr ss (dropEntity ss id) (survivors ss)
          (fun i hi => friendlyOf_dropEntity ss id i (fun hh => hnid (hh ▸ hi))) []
    have h1 := isOk_updateCard_iff ss cfg prev
    have h2 := isOk_updateCard_iff (dropEntity ss id) cfg prev
    rw [hbm] at h2
    by_cases hA : isOk (updateCard (some ss) (some cfg) prev) = true
    · rw [hA, h2.mpr (h1.mp hA)]
    · have hA' : isOk (updateCard (some ss) (some cfg) prev) = false := by
        cases hAv : isOk (updateCard (some ss) (some cfg) prev)
        · rfl
        · exact absurd hAv hA
      have hB : isOk (updateCard (some (dropEntity ss id)) (some cfg) prev)
          = false := by
        cases hBv : isOk (updateCard (some (dropEntity ss id)) (some cfg) prev)
        · rfl
        · exact absurd (h1.mpr (h2.mp hBv)) hA
      rw [hA', hB]

/-- C3 witness: the statement at a concrete snapshot containing one
conforming entity and one entity whose id is not sensor-shaped. -/
theorem claim_c3_witness :
    (∀ p ∈ contribs [
        ("sensor.v_w", { state := "8", attributes := some { friendly_name := some "V (w)", unit_of_measurement := none, icon := none } }),
        ("binary.x", { state := "off", attributes := none })],
      p.2 ≠ "binary.x") ∧
    (∀ m, buildMap [
        ("sensor.v_w", { state := "8", attributes := some { friendly_name := some "V (w)", unit_of_measurement := none, icon := none } }),
        ("binary.x", { state := "off", attributes := none })]
        (survivors [
          ("sensor.v_w", { state := "8", attributes := some { friendly_name := some "V (w)", unit_of_measurement := none, icon := none } }),
          ("binary.x", { state := "off", attributes := none })]) []
        = Except.ok m → ∀ q ∈ m, "binary.x" ∉ q.2) ∧
    isOk (updateCard (some [
        ("sensor.v_w", { state := "8", attributes := some { friendly_name := some "V (w)", unit_of_measurement := none, icon := none } }),
        ("binary.x", { state := "off", attributes := none })])
      (some { title := some "T", extra := [] }) RenderedContent.empty)
      = isOk (updateCard (some (dropEntity [
          ("sensor.v_w", { state := "8", attributes := some { friendly_name := some "V (w)", unit_of_measurement := none, icon := none } }),
          ("binary.x", { state := "off", attributes := none })] "binary.x"))
        (some { title := some "T", extra := [] }) RenderedContent.empty) :=
  claim_c3_excluded _ _ RenderedContent.empty "binary.x"
    { state := "off", attributes := none }
    (by decide) (by decide) (Or.inl (by decide))

end HealthBridge
